import Mathlib

/-!
# Verification of the hvicorn chat-client core

A shallow embedding, in Lean 4, of the core of the `hvicorn` hack.chat
client library: the envelope classifier (`json_to_object`), the nickname
validity predicate (`verifyNick`), the command router and session-directory
update logic of `Bot._internal_handler`, the plugin load/unload bookkeeping
(`Bot.load_plugin` / `Bot.unload_plugin`), and the dispatch/receive loop of
`Bot.run` / `Bot._run_events`.

Python dictionaries are modelled as insertion-ordered association lists with
unique keys; JSON values as an inductive `JVal`; Python exceptions as an
explicit `PyErr` error monad (`Except PyErr`).  Pydantic model construction
(`Model(**data)`) is modelled by per-model validator functions that check
required fields, field types, `Literal` values and aliases exactly as
pydantic does on the shapes that occur here (numeric/string lax coercions,
which no behaviour below depends on, are not modelled).
-/

set_option autoImplicit false

namespace Hvicorn

/-- A JSON value as received off the wire. -/
inductive JVal where
  | str  (s : String)
  | int  (n : Int)
  | bool (b : Bool)
  | null
  | arr  (xs : List JVal)
  | obj  (fields : List (String × JVal))
deriving Repr

/-- A raw envelope: one inbound JSON object, i.e. a Python `dict` modelled
as an insertion-ordered association list with (assumed) unique keys. -/
def Envelope : Type := List (String × JVal)

instance : Repr Envelope := inferInstanceAs (Repr (List (String × JVal)))

/-- Python exceptions that the embedded code can raise. -/
inductive PyErr where
  | valueError (msg : String)
  | keyError (key : String)
  | indexError
  | attributeError
  | validationError (model : String)
  | runtimeError (msg : String)
deriving DecidableEq, Repr

namespace Envelope

/-- `data.get(k)`: first binding of key `k`, if any. -/
def get (e : Envelope) (k : String) : Option JVal :=
  (List.find? (fun p => p.1 == k) e).map (fun p => p.2)

/-- `data[k]` read access: raises `KeyError` when the key is absent. -/
def getItem (e : Envelope) (k : String) : Except PyErr JVal :=
  match e.get k with
  | some v => .ok v
  | none => .error (.keyError k)

/-- `data[k] = v`: replace the binding in place if the key exists
(keeping its position, as Python dicts do), else append a new binding. -/
def set (e : Envelope) (k : String) (v : JVal) : Envelope :=
  match e with
  | [] => [(k, v)]
  | (k', v') :: rest =>
    if k' = k then (k, v) :: rest else (k', v') :: set rest k v

/-- `del data[k]`: drop the binding of `k` (callers below only delete keys
they have just read, so the `KeyError` case cannot occur there). -/
def del (e : Envelope) (k : String) : Envelope :=
  match e with
  | [] => []
  | (k', v') :: rest =>
    if k' = k then rest else (k', v') :: del rest k

end Envelope

/-- Python truthiness of an optional JSON value (`if not data.get(k)`):
a missing key, `None`, `""`, `0`, `False`, `[]` and `{}` are falsy. -/
def jtruthy : Option JVal → Bool
  | none => false
  | some (.str s) => s != ""
  | some (.int n) => n != 0
  | some (.bool b) => b
  | some .null => false
  | some (.arr xs) => !xs.isEmpty
  | some (.obj fs) => !fs.isEmpty

/-! ## Python string helpers

Defined by structural recursion over the character list of the string, so
that every use reduces in the kernel and is amenable to list lemmas. -/

/-- Split a character list at the first occurrence of the (nonempty)
separator: `some (before, after)`, or `none` when the separator does not
occur. -/
def splitOnce (l : List Char) (sep : List Char) : Option (List Char × List Char) :=
  match l with
  | [] => none
  | c :: rest =>
    if sep.isPrefixOf (c :: rest) then some ([], (c :: rest).drop sep.length)
    else match splitOnce rest sep with
      | none => none
      | some (pre, post) => some (c :: pre, post)

/-- Split a character list at every occurrence of a one-character
separator, keeping empty pieces (Python `s.split(c)` for a single-character
separator, which is the only full-split shape this code base uses). -/
def splitAllChar (sep : Char) : List Char → List (List Char)
  | [] => [[]]
  | c :: rest =>
    if c == sep then [] :: splitAllChar sep rest
    else match splitAllChar sep rest with
      | [] => [[c]]
      | t :: ts => (c :: t) :: ts

/-- Python `s.split(sep, 1)`: at most one split, at the first occurrence
of the separator. -/
def pySplit1 (s : String) (sep : String) : List String :=
  match splitOnce s.data sep.data with
  | none => [s]
  | some (pre, post) => [String.mk pre, String.mk post]

/-- Python `s.split(sep)` for a one-character separator (no maxsplit). -/
def pySplit (s : String) (sep : Char) : List String :=
  (splitAllChar sep s.data).map String.mk

/-- Python whitespace characters relevant to `str.split()` (ASCII subset;
the envelopes treated here contain no exotic Unicode whitespace). -/
def pyIsSpace (c : Char) : Bool :=
  c == ' ' || c == '\t' || c == '\n' || c == '\r' || c == '\x0b' || c == '\x0c'

/-- Python `s.split()`: split on runs of whitespace, discarding empty
pieces. -/
def pySplitWs (s : String) : List String :=
  ((s.data.splitOnP pyIsSpace).filter (fun t => !t.isEmpty)).map String.mk

/-- Python `s.count(c)` for a single-character needle. -/
def pyCount (s : String) (c : Char) : Nat :=
  s.data.countP (fun x => x == c)

/-- Python `s.startswith(pre)`. -/
def pyStartsWith (s pre : String) : Bool :=
  pre.data.isPrefixOf s.data

/-- Python `lst[i]`: raises `IndexError` when out of range. -/
def pyIndex {α : Type} (l : List α) (i : Nat) : Except PyErr α :=
  match l.get? i with
  | some x => .ok x
  | none => .error .indexError

/-! ## `verifyNick` (src/hvicorn/utils/json_to_object.py) -/

/-- `string.ascii_letters + string.digits + "_"`: the characters allowed in
a hack.chat nickname. -/
def NICK_CHARS : List Char :=
  "abcdefghijklmnopqrstuvwxyzABCDEFGHIJKLMNOPQRSTUVWXYZ0123456789_".data

/-- `verifyNick(nick)`: `False` when the nickname is longer than 24
characters or contains a character outside `NICK_CHARS`, else `True`.
(The Python loop `for char in nick: if char not in ...: return False`
is the list-`all` of the membership test.) -/
def verifyNick (nick : String) : Bool :=
  if nick.length > 24 then false
  else nick.data.all (fun c => NICK_CHARS.contains c)

/-! ## Server package models (src/hvicorn/models/server/)

Each pydantic model is a Lean structure holding the informative fields;
`Literal`-typed fields carry no information but are still checked by the
validator (`Model(**data)`).  Field aliases (`Field(..., alias="from")`)
are honoured: pydantic populates such a field only from the alias key. -/

/-- `uType: Literal["user", "mod", "admin"]`. -/
inductive UType where
  | user | mod | admin
deriving DecidableEq, Repr

/-- A `Union[str, bool]` color value (hack.chat sends `false` for "no
color"). -/
inductive ColorVal where
  | str (s : String)
  | bool (b : Bool)
deriving DecidableEq, Repr

/-- `mode: Literal["overwrite", "prepend", "append", "complete"]`. -/
inductive EditMode where
  | overwrite | prepend | append | complete
deriving DecidableEq, Repr

/-- The typed rate-limit reasons of `RateLimitedPackage.type` /
`RL_MAPPING`. -/
inductive RLType where
  | CHANNEL_RL | COLOR_RL | CHANGENICK_RL | MESSAGE_RL | GLOBAL_RL
deriving DecidableEq, Repr

structure User where
  channel : Option String
  color : ColorVal
  hash : String
  isBot : Bool
  isme : Bool
  level : Int
  nick : String
  trip : Option String
  uType : UType
  userid : Int
deriving DecidableEq, Repr

structure ChatPackage where
  channel : String
  color : Option String
  level : Int
  nick : String
  text : String
  time : Int
  trip : Option String
  uType : UType
  userid : Int
  customId : Option String
deriving DecidableEq, Repr

structure EmotePackage where
  channel : String
  nick : String
  text : String
  content : String
  time : Int
  trip : Option String
  userid : Int
deriving DecidableEq, Repr

structure InfoPackage where
  text : String
deriving DecidableEq, Repr

structure WhisperPackage where
  channel : String
  nick : String        -- populated from alias key "from"
  text : String
  content : String
  time : Int
  userid_to : Int
  trip : Option String
deriving DecidableEq, Repr

structure WhisperSentPackage where
  channel : String
  userid_from : Int    -- populated from alias key "from"
  text : String
  content : String
  time : Int
  userid_to : Int      -- populated from alias key "to"
  type : String        -- plain str with default "whisper"
deriving DecidableEq, Repr

structure InvitePackage where
  channel : String
  from_nick : String       -- populated from alias key "from"
  invite_channel : String  -- populated from alias key "inviteChannel"
  text : String
  time : Int
  to_userid : Int
deriving DecidableEq, Repr

structure ChangeNickPackage where
  old_nick : String
  new_nick : String
  text : String
  channel : String
  time : Int
deriving DecidableEq, Repr

structure LockroomPackage where
  time : Int
deriving DecidableEq, Repr

structure OnlineAddPackage where
  channel : Option String
  color : ColorVal
  hash : String
  isBot : Bool
  level : Int
  nick : String
  time : Int
  trip : Option String
  uType : UType
  userid : Int
deriving DecidableEq, Repr

structure OnlineRemovePackage where
  nick : String
  time : Int
  userid : Int
deriving DecidableEq, Repr

structure OnlineSetPackage where
  channel : String
  nicks : List String
  time : Int
  users : List User
deriving DecidableEq, Repr

structure UpdateUserPackage where
  channel : Option String
  color : ColorVal           -- Union[bool, str]: required, never None
  hash : Option String
  isBot : Option Bool
  level : Option Int
  nick : Option String
  time : Option Int
  trip : Option String
  uType : Option UType
  userid : Option Int
deriving DecidableEq, Repr

structure UpdateMessagePackage where
  channel : String
  customId : String
  level : Int
  mode : EditMode
  text : String
  time : Int
  userid : Int
deriving DecidableEq, Repr

structure WarnPackage where
  text : String
deriving DecidableEq, Repr

structure RateLimitedPackage where
  type : RLType
  text : String
deriving DecidableEq, Repr

structure CaptchaPackage where
  channel : String
  text : String
  time : Int
deriving DecidableEq, Repr

structure UncatchedPackage where
  rawjson : Envelope
deriving Repr

/-- The classified event: exactly one variant per server model. -/
inductive Package where
  | chat (p : ChatPackage)
  | emote (p : EmotePackage)
  | info (p : InfoPackage)
  | invite (p : InvitePackage)
  | onlineAdd (p : OnlineAddPackage)
  | onlineRemove (p : OnlineRemovePackage)
  | onlineSet (p : OnlineSetPackage)
  | updateUser (p : UpdateUserPackage)
  | warn (p : WarnPackage)
  | whisper (p : WhisperPackage)
  | updateMessage (p : UpdateMessagePackage)
  | changeNick (p : ChangeNickPackage)
  | captcha (p : CaptchaPackage)
  | lockroom (p : LockroomPackage)
  | whisperSent (p : WhisperSentPackage)
  | uncatched (p : UncatchedPackage)
  | rateLimited (p : RateLimitedPackage)
deriving Repr

/-! ## Pydantic field validation helpers -/

namespace Validate

/-- Required `str` field. -/
def vStr (model : String) (e : Envelope) (k : String) : Except PyErr String :=
  match e.get k with
  | some (.str s) => .ok s
  | _ => .error (.validationError model)

/-- Required `int` field. -/
def vInt (model : String) (e : Envelope) (k : String) : Except PyErr Int :=
  match e.get k with
  | some (.int n) => .ok n
  | _ => .error (.validationError model)

/-- Required `bool` field. -/
def vBool (model : String) (e : Envelope) (k : String) : Except PyErr Bool :=
  match e.get k with
  | some (.bool b) => .ok b
  | _ => .error (.validationError model)

/-- Required `Literal["lit"]` field: the value must be exactly `lit`. -/
def vLit (model : String) (e : Envelope) (k : String) (lit : String) :
    Except PyErr Unit :=
  match e.get k with
  | some (.str s) => if s == lit then .ok () else .error (.validationError model)
  | _ => .error (.validationError model)

/-- `Optional[str] = None` field. -/
def vOptStr (model : String) (e : Envelope) (k : String) :
    Except PyErr (Option String) :=
  match e.get k with
  | none => .ok none
  | some .null => .ok none
  | some (.str s) => .ok (some s)
  | some _ => .error (.validationError model)

/-- `Optional[int] = None` field. -/
def vOptInt (model : String) (e : Envelope) (k : String) :
    Except PyErr (Option Int) :=
  match e.get k with
  | none => .ok none
  | some .null => .ok none
  | some (.int n) => .ok (some n)
  | some _ => .error (.validationError model)

/-- `Optional[bool] = None` field. -/
def vOptBool (model : String) (e : Envelope) (k : String) :
    Except PyErr (Option Bool) :=
  match e.get k with
  | none => .ok none
  | some .null => .ok none
  | some (.bool b) => .ok (some b)
  | some _ => .error (.validationError model)

/-- `str = default` field: plain `str` with a default value. -/
def vStrD (model : String) (e : Envelope) (k : String) (d : String) :
    Except PyErr String :=
  match e.get k with
  | none => .ok d
  | some (.str s) => .ok s
  | some _ => .error (.validationError model)

/-- Required `Literal["user", "mod", "admin"]` field. -/
def vUType (model : String) (e : Envelope) (k : String) : Except PyErr UType :=
  match e.get k with
  | some (.str "user") => .ok .user
  | some (.str "mod") => .ok .mod
  | some (.str "admin") => .ok .admin
  | _ => .error (.validationError model)

/-- `Optional[Literal["user", "mod", "admin"]] = None` field. -/
def vOptUType (model : String) (e : Envelope) (k : String) :
    Except PyErr (Option UType) :=
  match e.get k with
  | none => .ok none
  | some .null => .ok none
  | some (.str "user") => .ok (some .user)
  | some (.str "mod") => .ok (some .mod)
  | some (.str "admin") => .ok (some .admin)
  | _ => .error (.validationError model)

/-- Required `Union[str, bool]` / `Union[bool, str]` color field. -/
def vColor (model : String) (e : Envelope) (k : String) :
    Except PyErr ColorVal :=
  match e.get k with
  | some (.str s) => .ok (.str s)
  | some (.bool b) => .ok (.bool b)
  | _ => .error (.validationError model)

/-- Required `Literal["overwrite", "prepend", "append", "complete"]`. -/
def vMode (model : String) (e : Envelope) (k : String) :
    Except PyErr EditMode :=
  match e.get k with
  | some (.str "overwrite") => .ok .overwrite
  | some (.str "prepend") => .ok .prepend
  | some (.str "append") => .ok .append
  | some (.str "complete") => .ok .complete
  | _ => .error (.validationError model)

/-- Required `List[str]` field. -/
def vStrList (model : String) (e : Envelope) (k : String) :
    Except PyErr (List String) :=
  match e.get k with
  | some (.arr xs) =>
    xs.mapM (fun v => match v with
      | .str s => .ok s
      | _ => .error (.validationError model))
  | _ => .error (.validationError model)

end Validate

open Validate

/-! ## Pydantic model constructors (`Model(**data)`)

One validator per server model, checking exactly the fields, aliases,
defaults and `Literal` values the model declares; unknown keys are ignored
(pydantic's default).  Field order follows each model's declaration. -/

def ChatPackage.validate (e : Envelope) : Except PyErr ChatPackage := do
  vLit "ChatPackage" e "cmd" "chat"
  let channel ← vStr "ChatPackage" e "channel"
  let color ← vOptStr "ChatPackage" e "color"
  let level ← vInt "ChatPackage" e "level"
  let nick ← vStr "ChatPackage" e "nick"
  let text ← vStr "ChatPackage" e "text"
  let time ← vInt "ChatPackage" e "time"
  let trip ← vOptStr "ChatPackage" e "trip"
  let uType ← vUType "ChatPackage" e "uType"
  let userid ← vInt "ChatPackage" e "userid"
  let customId ← vOptStr "ChatPackage" e "customId"
  return ⟨channel, color, level, nick, text, time, trip, uType, userid, customId⟩

def EmotePackage.validate (e : Envelope) : Except PyErr EmotePackage := do
  let channel ← vStr "EmotePackage" e "channel"
  vLit "EmotePackage" e "cmd" "emote"
  let nick ← vStr "EmotePackage" e "nick"
  let text ← vStr "EmotePackage" e "text"
  let content ← vStr "EmotePackage" e "content"
  let time ← vInt "EmotePackage" e "time"
  let trip ← vOptStr "EmotePackage" e "trip"
  let userid ← vInt "EmotePackage" e "userid"
  return ⟨channel, nick, text, content, time, trip, userid⟩

def InfoPackage.validate (e : Envelope) : Except PyErr InfoPackage := do
  vLit "InfoPackage" e "cmd" "info"
  let text ← vStr "InfoPackage" e "text"
  return ⟨text⟩

def WhisperPackage.validate (e : Envelope) : Except PyErr WhisperPackage := do
  let channel ← vStr "WhisperPackage" e "channel"
  vLit "WhisperPackage" e "cmd" "info"
  let nick ← vStr "WhisperPackage" e "from"       -- alias="from"
  let text ← vStr "WhisperPackage" e "text"
  let content ← vStr "WhisperPackage" e "content"
  let time ← vInt "WhisperPackage" e "time"
  let userid_to ← vInt "WhisperPackage" e "userid_to"
  let trip ← vOptStr "WhisperPackage" e "trip"
  vLit "WhisperPackage" e "type" "whisper"
  return ⟨channel, nick, text, content, time, userid_to, trip⟩

def WhisperSentPackage.validate (e : Envelope) :
    Except PyErr WhisperSentPackage := do
  let channel ← vStr "WhisperSentPackage" e "channel"
  vLit "WhisperSentPackage" e "cmd" "info"
  let userid_from ← vInt "WhisperSentPackage" e "from"  -- alias="from"
  let text ← vStr "WhisperSentPackage" e "text"
  let content ← vStr "WhisperSentPackage" e "content"
  let time ← vInt "WhisperSentPackage" e "time"
  let userid_to ← vInt "WhisperSentPackage" e "to"      -- alias="to"
  let ty ← vStrD "WhisperSentPackage" e "type" "whisper"
  return ⟨channel, userid_from, text, content, time, userid_to, ty⟩

def InvitePackage.validate (e : Envelope) : Except PyErr InvitePackage := do
  let channel ← vStr "InvitePackage" e "channel"
  vLit "InvitePackage" e "cmd" "invite"
  let from_nick ← vStr "InvitePackage" e "from"   -- alias="from"
  let invite_channel ← vStr "InvitePackage" e "inviteChannel"  -- alias
  let text ← vStr "InvitePackage" e "text"
  let time ← vInt "InvitePackage" e "time"
  let to_userid ← vInt "InvitePackage" e "to_userid"
  vLit "InvitePackage" e "type" "invite"
  return ⟨channel, from_nick, invite_channel, text, time, to_userid⟩

def ChangeNickPackage.validate (e : Envelope) :
    Except PyErr ChangeNickPackage := do
  let old_nick ← vStr "ChangeNickPackage" e "old_nick"
  let new_nick ← vStr "ChangeNickPackage" e "new_nick"
  let text ← vStr "ChangeNickPackage" e "text"
  vLit "ChangeNickPackage" e "cmd" "changenick"
  let channel ← vStr "ChangeNickPackage" e "channel"
  let time ← vInt "ChangeNickPackage" e "time"
  return ⟨old_nick, new_nick, text, channel, time⟩

def User.validate (v : JVal) : Except PyErr User := do
  match v with
  | .obj fields =>
    let e : Envelope := fields
    let channel ← vOptStr "User" e "channel"
    let color ← vColor "User" e "color"
    let hash ← vStr "User" e "hash"
    let isBot ← vBool "User" e "isBot"
    let isme ← vBool "User" e "isme"
    let level ← vInt "User" e "level"
    let nick ← vStr "User" e "nick"
    let trip ← vOptStr "User" e "trip"
    let uType ← vUType "User" e "uType"
    let userid ← vInt "User" e "userid"
    return ⟨channel, color, hash, isBot, isme, level, nick, trip, uType, userid⟩
  | _ => .error (.validationError "User")

def OnlineSetPackage.validate (e : Envelope) :
    Except PyErr OnlineSetPackage := do
  vLit "OnlineSetPackage" e "cmd" "onlineSet"
  let channel ← vStr "OnlineSetPackage" e "channel"
  let nicks ← vStrList "OnlineSetPackage" e "nicks"
  let time ← vInt "OnlineSetPackage" e "time"
  let users ← match e.get "users" with
    | some (.arr xs) => xs.mapM User.validate
    | _ => .error (.validationError "OnlineSetPackage")
  return ⟨channel, nicks, time, users⟩

def OnlineAddPackage.validate (e : Envelope) :
    Except PyErr OnlineAddPackage := do
  let channel ← vOptStr "OnlineAddPackage" e "channel"
  vLit "OnlineAddPackage" e "cmd" "onlineAdd"
  let color ← vColor "OnlineAddPackage" e "color"
  let hash ← vStr "OnlineAddPackage" e "hash"
  let isBot ← vBool "OnlineAddPackage" e "isBot"
  let level ← vInt "OnlineAddPackage" e "level"
  let nick ← vStr "OnlineAddPackage" e "nick"
  let time ← vInt "OnlineAddPackage" e "time"
  let trip ← vOptStr "OnlineAddPackage" e "trip"
  let uType ← vUType "OnlineAddPackage" e "uType"
  let userid ← vInt "OnlineAddPackage" e "userid"
  return ⟨channel, color, hash, isBot, level, nick, time, trip, uType, userid⟩

def OnlineRemovePackage.validate (e : Envelope) :
    Except PyErr OnlineRemovePackage := do
  let nick ← vStr "OnlineRemovePackage" e "nick"
  vLit "OnlineRemovePackage" e "cmd" "onlineRemove"
  let time ← vInt "OnlineRemovePackage" e "time"
  let userid ← vInt "OnlineRemovePackage" e "userid"
  return ⟨nick, time, userid⟩

def UpdateUserPackage.validate (e : Envelope) :
    Except PyErr UpdateUserPackage := do
  let channel ← vOptStr "UpdateUserPackage" e "channel"
  vLit "UpdateUserPackage" e "cmd" "updateUser"
  let color ← vColor "UpdateUserPackage" e "color"
  let hash ← vOptStr "UpdateUserPackage" e "hash"
  let isBot ← vOptBool "UpdateUserPackage" e "isBot"
  let level ← vOptInt "UpdateUserPackage" e "level"
  let nick ← vOptStr "UpdateUserPackage" e "nick"
  let time ← vOptInt "UpdateUserPackage" e "time"
  let trip ← vOptStr "UpdateUserPackage" e "trip"
  let uType ← vOptUType "UpdateUserPackage" e "uType"
  let userid ← vOptInt "UpdateUserPackage" e "userid"
  return ⟨channel, color, hash, isBot, level, nick, time, trip, uType, userid⟩

def UpdateMessagePackage.validate (e : Envelope) :
    Except PyErr UpdateMessagePackage := do
  let channel ← vStr "UpdateMessagePackage" e "channel"
  vLit "UpdateMessagePackage" e "cmd" "updateMessage"
  let customId ← vStr "UpdateMessagePackage" e "customId"
  let level ← vInt "UpdateMessagePackage" e "level"
  let mode ← vMode "UpdateMessagePackage" e "mode"
  let text ← vStr "UpdateMessagePackage" e "text"
  let time ← vInt "UpdateMessagePackage" e "time"
  let userid ← vInt "UpdateMessagePackage" e "userid"
  return ⟨channel, customId, level, mode, text, time, userid⟩

def CaptchaPackage.validate (e : Envelope) : Except PyErr CaptchaPackage := do
  let channel ← vStr "CaptchaPackage" e "channel"
  vLit "CaptchaPackage" e "cmd" "captcha"
  let text ← vStr "CaptchaPackage" e "text"
  let time ← vInt "CaptchaPackage" e "time"
  return ⟨channel, text, time⟩

def WarnPackage.validate (e : Envelope) : Except PyErr WarnPackage := do
  vLit "WarnPackage" e "cmd" "warn"
  let text ← vStr "WarnPackage" e "text"
  return ⟨text⟩

/-! ## The envelope classifier `json_to_object`
(src/hvicorn/utils/json_to_object.py) -/

/-- `RL_MAPPING`: the five known rate-limit phrases and their typed
reasons. -/
def RL_MAPPING : List (String × RLType) :=
  [("You are joining channels too fast. Wait a moment and try again.",
    .CHANNEL_RL),
   ("You are changing colors too fast. Wait a moment before trying again.",
    .COLOR_RL),
   ("You are changing nicknames too fast. Wait a moment before trying again.",
    .CHANGENICK_RL),
   ("You are sending too much text. Wait a moment and try again.\nPress the up arrow key to restore your last message.",
    .MESSAGE_RL),
   ("You are rate-limited or blocked.", .GLOBAL_RL)]

/-- `RL_MAPPING[key]`: dict lookup (raises `KeyError` when absent). -/
def rlLookup (key : String) : Option RLType :=
  (RL_MAPPING.find? (fun p => p.1 == key)).map (fun p => p.2)

/-- The literal list the `warn` branch of `json_to_object` tests
membership in.  Note it contains a sixth phrase ("sending invites too
fast") that `RL_MAPPING` does not know. -/
def WARN_RL_TEXTS : List String :=
  ["You are joining channels too fast. Wait a moment and try again.",
   "You are changing colors too fast. Wait a moment before trying again.",
   "You are sending invites too fast. Wait a moment before trying again.",
   "You are changing nicknames too fast. Wait a moment before trying again.",
   "You are sending too much text. Wait a moment and try again.\nPress the up arrow key to restore your last message.",
   "You are rate-limited or blocked."]

/-- Python `value == "lit"` where `value` came from `data.get(k)`:
true only for an equal string. -/
def jeqStr : Option JVal → String → Bool
  | some (.str s), t => s == t
  | _, _ => false

/-- `data.get(k, "")` followed by a `str` method call: yields the default
for a missing key, the string itself for a string, and raises
`AttributeError` when the value is not a string (Python would fail on the
method lookup). -/
def getStrD (e : Envelope) (k : String) (d : String) : Except PyErr String :=
  match e.get k with
  | none => .ok d
  | some (.str s) => .ok s
  | some _ => .error .attributeError

/-- A `str` method call on `data[k]`'s value: `AttributeError` unless the
value is a string. -/
def JVal.asStr : JVal → Except PyErr String
  | .str s => .ok s
  | _ => .error .attributeError

/-- The room-lockout phrase matched verbatim. -/
def LOCKROOM_TEXT : String :=
  "You have been denied access to that channel and have been moved somewhere else. Retry later or wait for a mod to move you."

/-- The nickname-change match condition of the `info` branch (evaluated
left to right with Python short-circuiting; the two `verifyNick` calls
index into the whitespace-split token list and can raise `IndexError`):
`text.count(" ") == 3 and text.split(" ", 1)[1].startswith("is now") and
verifyNick(text.split()[0]) and verifyNick(text.split()[3])`. -/
def changeNickMatch (text : String) : Except PyErr Bool := do
  if pyCount text ' ' == 3 then
    let tail ← pyIndex (pySplit1 text " ") 1
    if pyStartsWith tail "is now" then
      let w0 ← pyIndex (pySplitWs text) 0
      if verifyNick w0 then
        let w3 ← pyIndex (pySplitWs text) 3
        return verifyNick w3
      else return false
    else return false
  else return false

/-- `json_to_object(data)`.  Returns the classified package together with
the final state of `data` (the function mutates the dict it is given); a
Python exception is an `Except.error`. -/
def jsonToObject (data : Envelope) : Except PyErr (Package × Envelope) := do
  if !(jtruthy (data.get "cmd")) then
    throw (.valueError "No `cmd` provided")
  let command := data.get "cmd"
  if jeqStr command "chat" then
    let p ← ChatPackage.validate data
    return (.chat p, data)
  else if jeqStr command "emote" then
    -- data["content"] = data["text"].split(" ", 1)[1]
    let tv ← data.getItem "text"
    let ts ← tv.asStr
    let content ← pyIndex (pySplit1 ts " ") 1
    let data := data.set "content" (.str content)
    let p ← EmotePackage.validate data
    return (.emote p, data)
  else if jeqStr command "info" then
    if !(jtruthy (data.get "type")) then
      let text ← getStrD data "text" ""
      let matched ← changeNickMatch text
      if matched then
        -- data["old_nick"] = text.split(" ")[0]; data["new_nick"] = ...[3]
        let old ← pyIndex (pySplit text ' ') 0
        let nw ← pyIndex (pySplit text ' ') 3
        let data := data.set "old_nick" (.str old)
        let data := data.set "new_nick" (.str nw)
        let p ← ChangeNickPackage.validate data
        return (.changeNick p, data)
      else if text == LOCKROOM_TEXT then
        -- LockroomPackage(cmd="info", time=data["time"])
        let tv ← data.getItem "time"
        match tv with
        | .int t => return (.lockroom ⟨t⟩, data)
        | _ => throw (.validationError "LockroomPackage")
      else
        let p ← InfoPackage.validate data
        return (.info p, data)
    else if jeqStr (data.get "type") "whisper" then
      let text ← getStrD data "text" ""
      if pyStartsWith text "You whispered to" then
        -- data["content"] = data["text"].split(": ", 1)[1]
        let tv ← data.getItem "text"
        let ts ← tv.asStr
        let content ← pyIndex (pySplit1 ts ": ") 1
        let data := data.set "content" (.str content)
        let p ← WhisperSentPackage.validate data
        return (.whisperSent p, data)
      else
        -- data["userid_to"] = data["to"]; del data["to"]
        let tov ← data.getItem "to"
        let data := (data.set "userid_to" tov).del "to"
        let tv ← data.getItem "text"
        let ts ← tv.asStr
        let content ← pyIndex (pySplit1 ts ": ") 1
        let data := data.set "content" (.str content)
        let p ← WhisperPackage.validate data
        return (.whisper p, data)
    else if jeqStr (data.get "type") "invite" then
      -- data["from_nick"] = data["from"]; data["to_userid"] = data["to"]
      let fv ← data.getItem "from"
      let data := data.set "from_nick" fv
      let tov ← data.getItem "to"
      let data := data.set "to_userid" tov
      let data := (data.del "from").del "to"
      let p ← InvitePackage.validate data
      return (.invite p, data)
    else
      -- info with an unrecognized truthy type: falls through the elif
      -- chain to the final catch-all return
      return (.uncatched ⟨data⟩, data)
  else if jeqStr command "onlineSet" then
    let p ← OnlineSetPackage.validate data
    return (.onlineSet p, data)
  else if jeqStr command "onlineAdd" then
    let p ← OnlineAddPackage.validate data
    return (.onlineAdd p, data)
  else if jeqStr command "onlineRemove" then
    let p ← OnlineRemovePackage.validate data
    return (.onlineRemove p, data)
  else if jeqStr command "updateUser" then
    let p ← UpdateUserPackage.validate data
    return (.updateUser p, data)
  else if jeqStr command "updateMessage" then
    let p ← UpdateMessagePackage.validate data
    return (.updateMessage p, data)
  else if jeqStr command "captcha" then
    let p ← CaptchaPackage.validate data
    return (.captcha p, data)
  else if jeqStr command "warn" then
    if WARN_RL_TEXTS.any (fun t => jeqStr (data.get "text") t) then
      -- RateLimitedPackage(cmd="warn", type=RL_MAPPING[data.get("text", "")],
      --                    text=data.get("text", ""))
      let key := match data.get "text" with
        | some (.str s) => s
        | _ => ""
      match rlLookup key with
      | some ty => return (.rateLimited ⟨ty, key⟩, data)
      | none => throw (.keyError key)
    else
      let p ← WarnPackage.validate data
      return (.warn p, data)
  else
    return (.uncatched ⟨data⟩, data)

/-! ## Session directory lookups (src/hvicorn/bot/client.py) -/

/-- `Bot.get_user_by_nick`: the first user whose `nick` matches, if any
(`get_users_by("nick", ...)` collects all matches, `get_user_by` takes
`result[0]`). -/
def getUserByNick (users : List User) (nick : String) : Option User :=
  (users.filter (fun u => u.nick == nick)).head?

/-! ## Command router (`Bot._internal_handler`, chat/whisper blocks)

A command handler is identified by an opaque id (`Nat`); `commands` is the
bot's prefix → handler dict in insertion order.  An invocation is recorded
as the handler id together with the `CommandContext` it receives; a failed
sender resolution (`RuntimeError("User not found")`) or an exception while
building the context is swallowed by the per-command `try`/`except`,
skipping only that invocation. -/

structure CommandContext where
  sender : User
  triggered_via : String
  text : String
  args : String
deriving DecidableEq, Repr

/-- The scan over `self.commands.items()` performed for one chat message
(on `event.text`) or one received whisper (on `event.content`): every
matching prefix produces an invocation, in dict order, with
`args = text.split(" ", 1)[1] if text != prefix else ""`. -/
def runCommands (users : List User) (commands : List (String × Nat))
    (senderNick text via : String) : List (Nat × CommandContext) :=
  commands.filterMap (fun c =>
    if pyStartsWith text (c.1 ++ " ") || text == c.1 then
      match getUserByNick users senderNick with
      | none => none        -- RuntimeError("User not found"), caught
      | some user =>
        match (if text != c.1 then pyIndex (pySplit1 text " ") 1
               else .ok "") with
        | .ok args => some (c.2, ⟨user, via, text, args⟩)
        | .error _ => none  -- exception caught by the per-command try
    else none)

/-! ## Session directory mutation (`Bot._internal_handler`) -/

/-- One field step of the `UpdateUser` loop: overwrite the current value
with the update's value when the latter is present (`v != None`) and
differs (`v != target_user.__getattribute__(k)`); keep it otherwise. -/
def updField {α : Type} [BEq α] (cur : α) (v : Option α) : α :=
  match v with
  | none => cur
  | some x => if cur == x then cur else x

/-- Like `updField` for a field that is optional on the `User` side too
(`channel`, `hash`, `trip`: the update's non-`None` value overwrites). -/
def updOptField {α : Type} [BEq α] (cur : Option α) (v : Option α) : Option α :=
  match v with
  | none => cur
  | some x => if cur == some x then cur else some x

/-- The per-user effect of an `UpdateUserPackage`: every key of
`event.model_dump()` that is also an attribute of `User` (`cmd` and `time`
are not) and is non-`None` and different overwrites the user's attribute.
`color` is a required (never `None`) field of the update, so it is always
applied. -/
def applyUpdate (u : User) (e : UpdateUserPackage) : User :=
  { u with
    channel := updOptField u.channel e.channel
    color := updField u.color (some e.color)
    hash := updField u.hash e.hash
    isBot := updField u.isBot e.isBot
    level := updField u.level e.level
    nick := updField u.nick e.nick
    trip := updOptField u.trip e.trip
    uType := updField u.uType e.uType
    userid := updField u.userid e.userid }

/-- Mutate the first user whose nick matches (the object returned by
`get_user_by_nick` is updated in place inside `self.users`). -/
def applyUpdateFirst (users : List User) (n : String) (e : UpdateUserPackage) :
    List User :=
  match users with
  | [] => []
  | u :: rest =>
    if u.nick == n then applyUpdate u e :: rest
    else u :: applyUpdateFirst rest n e

/-- The `UpdateUserPackage` block of `_internal_handler`: return untouched
when `event.nick` is falsy (`None` or `""`); when no user matches, the
field loop runs over `dir(None)`, which contains no model field, so the
list is also untouched. -/
def updateUserInUsers (users : List User) (e : UpdateUserPackage) :
    List User :=
  match e.nick with
  | none => users
  | some n =>
    if n == "" then users
    else match getUserByNick users n with
      | none => users
      | some _ => applyUpdateFirst users n e

/-- The roster part of `_internal_handler` (OnlineSet / OnlineAdd /
OnlineRemove / UpdateUser blocks), as a function of the dispatched
event. -/
def rosterStep (users : List User) (ev : Package) : List User :=
  match ev with
  | .onlineSet p => p.users
  | .onlineAdd p =>
    users ++ [⟨p.channel, p.color, p.hash, p.isBot, false, p.level, p.nick,
               p.trip, p.uType, p.userid⟩]
  | .onlineRemove p =>
    match getUserByNick users p.nick with
    | none => users
    | some u => users.erase u
  | .updateUser p => updateUserInUsers users p
  | _ => users

/-- The session directory after the internal handler has processed a
sequence of dispatched events, starting from the empty roster. -/
def internalRoster (events : List Package) : List User :=
  events.foldl rosterStep []

/-! ## Generic Python dict operations (insertion-ordered assoc lists) -/

namespace Dict

variable {α : Type}

/-- `d.get(k)` / `d[k]` lookup. -/
def get (d : List (String × α)) (k : String) : Option α :=
  (d.find? (fun p => p.1 == k)).map (fun p => p.2)

/-- `d[k] = v`: replace in place when the key exists, else append. -/
def set (d : List (String × α)) (k : String) (v : α) : List (String × α) :=
  match d with
  | [] => [(k, v)]
  | (k', v') :: rest =>
    if k' == k then (k, v) :: rest else (k', v') :: set rest k v

/-- `del d[k]` (no-op when absent; call sites guard with `in`). -/
def del (d : List (String × α)) (k : String) : List (String × α) :=
  match d with
  | [] => []
  | (k', v') :: rest =>
    if k' == k then rest else (k', v') :: del rest k

/-- `k in d`. -/
def hasKey (d : List (String × α)) (k : String) : Bool :=
  d.any (fun p => p.1 == k)

end Dict

/-! ## Handler registry and plugin manager (src/hvicorn/bot/client.py)

Handler functions are opaque values identified by `hid`; `isAsync` models
`asyncio.iscoroutinefunction` and `raises` the behaviour of the handler's
body when it runs.  Python compares function objects by identity, which
structural equality of this record models (distinct registrations are
distinct ids). -/

structure Handler where
  hid : Nat
  isAsync : Bool
  raises : Bool
deriving DecidableEq, Repr

/-- What `load_plugin` records for one plugin, to support `unload_plugin`:
the command prefixes added and, per event selector, the handlers added. -/
structure PluginRecord where
  commands : List String
  handlers : List (String × List Handler)
deriving DecidableEq, Repr

/-- The registration state of a `Bot`: the command dict, the
`event_functions` dict (selector `"__GLOBAL__"` or an event-type tag →
handler list) and the `loaded_plugins` dict. -/
structure BotRegistry where
  commands : List (String × Handler)
  event_functions : List (String × List Handler)
  loaded_plugins : List (String × PluginRecord)
deriving DecidableEq, Repr

/-- `Bot.register_command`: overwrite (with a logged warning) or add. -/
def registerCommand (reg : BotRegistry) (pfx : String) (f : Handler) :
    BotRegistry :=
  { reg with commands := Dict.set reg.commands pfx f }

/-- `Bot.register_event_function` / the `Bot.on` decorator: append to the
selector's list, or create a fresh singleton list. -/
def registerEventFunction (reg : BotRegistry) (sel : String) (f : Handler) :
    BotRegistry :=
  { reg with event_functions :=
      match Dict.get reg.event_functions sel with
      | some l => Dict.set reg.event_functions sel (l ++ [f])
      | none => Dict.set reg.event_functions sel [f] }

/-- One registration action an initializer may perform against the bot. -/
inductive RegAction where
  | cmd (pfx : String) (f : Handler)
  | handler (sel : String) (f : Handler)
deriving DecidableEq, Repr

def applyAction (reg : BotRegistry) : RegAction → BotRegistry
  | .cmd p f => registerCommand reg p f
  | .handler s f => registerEventFunction reg s f

def applyActions (reg : BotRegistry) (acts : List RegAction) : BotRegistry :=
  acts.foldl applyAction reg

/-- `Bot.load_plugin` with a successful `init_function` modelled as the
sequence of registrations it performs.  Snapshot the command-key set and
the per-selector handler-list lengths, run the initializer, then record
the added command keys (`set(after) - set(before)`, here in `after`'s
insertion order) and, for each selector that grew, the tail of its handler
list beyond the snapshot length. -/
def loadPlugin (reg : BotRegistry) (name : String) (acts : List RegAction) :
    BotRegistry :=
  let commandsBefore := reg.commands.map (fun p => p.1)
  let handlersBefore := reg.event_functions.map (fun p => (p.1, p.2.length))
  let reg' := applyActions reg acts
  let commandsAfter := reg'.commands.map (fun p => p.1)
  let newCommands := commandsAfter.filter (fun c => !commandsBefore.contains c)
  let newHandlers := reg'.event_functions.filterMap (fun p =>
    let before : Nat := (Dict.get handlersBefore p.1).getD 0
    if p.2.length > before then some (p.1, p.2.drop before) else none)
  { reg' with loaded_plugins :=
      Dict.set reg'.loaded_plugins name ⟨newCommands, newHandlers⟩ }

/-- `for handler in handlers: if handler in lst: lst.remove(handler)` —
each listed handler is removed once (first occurrence) if present. -/
def removeAll (hs : List Handler) (l : List Handler) : List Handler :=
  hs.foldl (fun l h => if l.contains h then l.erase h else l) l

/-- One recorded command prefix of `unload_plugin`:
`if command in self.commands: del self.commands[command]`. -/
def unloadCommandsStep (cs : List (String × Handler)) (c : String) :
    List (String × Handler) :=
  if Dict.hasKey cs c then Dict.del cs c else cs

/-- One recorded selector of `unload_plugin`: remove each recorded
handler from that selector's list. -/
def unloadHandlersStep (efs : List (String × List Handler))
    (p : String × List Handler) : List (String × List Handler) :=
  if Dict.hasKey efs p.1 then
    match Dict.get efs p.1 with
    | some l => Dict.set efs p.1 (removeAll p.2 l)
    | none => efs
  else efs

/-- `Bot.unload_plugin`: no-op when the plugin is unknown; otherwise
delete each recorded command key still present, `list.remove` each
recorded handler from its selector's list, and delete the record. -/
def unloadPlugin (reg : BotRegistry) (name : String) : BotRegistry :=
  match Dict.get reg.loaded_plugins name with
  | none => reg
  | some info =>
    let commands := info.commands.foldl unloadCommandsStep reg.commands
    let efs := info.handlers.foldl unloadHandlersStep reg.event_functions
    { commands := commands, event_functions := efs,
      loaded_plugins := Dict.del reg.loaded_plugins name }

/-- The command entries a list of registration actions adds, in order. -/
def cmdAdds (acts : List RegAction) : List (String × Handler) :=
  acts.filterMap (fun a => match a with
    | .cmd p f => some (p, f)
    | _ => none)

/-- The handlers a list of registration actions appends to one
selector, in order. -/
def handlerAdds (acts : List RegAction) (sel : String) : List Handler :=
  acts.filterMap (fun a => match a with
    | .handler s f => if s == sel then some f else none
    | _ => none)

/-- The per-selector handler additions `load_plugin` records: one entry
per selector that grew, holding the tail of its handler list. -/
def recordedHandlers (reg : BotRegistry) (acts : List RegAction) :
    List (String × List Handler) :=
  reg.event_functions.filterMap (fun q =>
    if (handlerAdds acts q.1).isEmpty then none
    else some (q.1, handlerAdds acts q.1))

/-! ## Dispatch engine and receive loop (`Bot._run_events`, `Bot.run`)

The receive loop is single-threaded; `_run_events` runs synchronous
handlers inline inside its `try`/`except` and hands coroutine handlers to
`taskgroup.create_task` (only the creation is inside the `try`).  Spawned
tasks first run at the loop's next suspension point (`websocket.recv()`);
an exception inside one of them is NOT caught anywhere — it makes the
`asyncio.TaskGroup` cancel the receive loop.  The model tracks the pending
tasks, the ids of handlers started, the ids logged by the dispatch-level
`except`, the events fanned out, and whether the task group has aborted
the loop. -/

structure LoopState where
  tasks : List Handler
  invoked : List Nat
  log : List Nat
  dispatched : List Package
  aborted : Bool

/-- One handler of the `_run_events` loop: a coroutine handler becomes a
task (`taskgroup.create_task`; its body has not run yet), a synchronous
handler runs inline with its exception caught and logged by the
surrounding `try`/`except`. -/
def runEventsStep (st : LoopState) (h : Handler) : LoopState :=
  if h.isAsync then
    { st with tasks := st.tasks ++ [h], invoked := st.invoked ++ [h.hid] }
  else if h.raises then
    { st with invoked := st.invoked ++ [h.hid], log := st.log ++ [h.hid] }
  else
    { st with invoked := st.invoked ++ [h.hid] }

/-- `Bot._run_events(event_type, args, taskgroup)`: iterate the selector's
handler list (`self.event_functions.get(event_type, [])`). -/
def runEvents (efs : List (String × List Handler)) (sel : String)
    (st : LoopState) : LoopState :=
  ((Dict.get efs sel).getD []).foldl runEventsStep st

/-- The `isinstance`/`event.nick == self.nick and ignore_self` guard of
`Bot.run`: only chat, emote, onlineAdd, onlineRemove and whisper events
carry a nick for the self-check. -/
def selfCheck (ev : Package) (botNick : String) (ignoreSelf : Bool) : Bool :=
  match ev with
  | .chat p => p.nick == botNick && ignoreSelf
  | .emote p => p.nick == botNick && ignoreSelf
  | .onlineAdd p => p.nick == botNick && ignoreSelf
  | .onlineRemove p => p.nick == botNick && ignoreSelf
  | .whisper p => p.nick == botNick && ignoreSelf
  | _ => false

/-- The `type(event)` selector key used for the second `_run_events`
call. -/
def Package.tag : Package → String
  | .chat _ => "ChatPackage"
  | .emote _ => "EmotePackage"
  | .info _ => "InfoPackage"
  | .invite _ => "InvitePackage"
  | .onlineAdd _ => "OnlineAddPackage"
  | .onlineRemove _ => "OnlineRemovePackage"
  | .onlineSet _ => "OnlineSetPackage"
  | .updateUser _ => "UpdateUserPackage"
  | .warn _ => "WarnPackage"
  | .whisper _ => "WhisperPackage"
  | .updateMessage _ => "UpdateMessagePackage"
  | .changeNick _ => "ChangeNickPackage"
  | .captcha _ => "CaptchaPackage"
  | .lockroom _ => "LockroomPackage"
  | .whisperSent _ => "WhisperSentPackage"
  | .uncatched _ => "UncatchedPackage"
  | .rateLimited _ => "RateLimitedPackage"

/-- One iteration of the receive loop of `Bot.run` for one inbound
envelope: at the `websocket.recv()` suspension point the pending tasks
run — if any of their bodies raises, the task group cancels the loop
(`aborted`); then the envelope is parsed (`json_to_object` failures are
logged and skipped), the self-check may drop the event, and otherwise the
`"__GLOBAL__"` handlers and the type-specific handlers are dispatched. -/
def loopStep (botNick : String) (ignoreSelf : Bool)
    (efs : List (String × List Handler)) (st : LoopState) (env : Envelope) :
    LoopState :=
  if st.aborted then st
  else if st.tasks.any (fun h => h.raises) then
    { st with tasks := [], aborted := true }
  else
    let st := { st with tasks := [] }
    match jsonToObject env with
    | .error _ => st
    | .ok (event, _) =>
      if selfCheck event botNick ignoreSelf then st
      else
        let st := runEvents efs "__GLOBAL__" st
        let st := runEvents efs event.tag st
        { st with dispatched := st.dispatched ++ [event] }

/-- The receive loop over a finite inbound trace. -/
def runLoop (botNick : String) (ignoreSelf : Bool)
    (efs : List (String × List Handler)) (envs : List Envelope) : LoopState :=
  envs.foldl (loopStep botNick ignoreSelf efs) ⟨[], [], [], [], false⟩

/-- The ten `cmd` values with their own branch in `json_to_object`. -/
def RECOGNIZED_CMDS : List String :=
  ["chat", "emote", "info", "onlineSet", "onlineAdd", "onlineRemove",
   "updateUser", "updateMessage", "captcha", "warn"]

/-- The commands whose classifier branch never writes to the envelope. -/
def NON_MUTATING_CMDS : List String :=
  ["chat", "onlineSet", "onlineAdd", "onlineRemove", "updateUser",
   "updateMessage", "captcha", "warn"]

/-- The sender nick the self-check inspects: present exactly for the five
event kinds the `isinstance` tuple of `Bot.run` lists. -/
def Package.nickOf : Package → Option String
  | .chat p => some p.nick
  | .emote p => some p.nick
  | .onlineAdd p => some p.nick
  | .onlineRemove p => some p.nick
  | .whisper p => some p.nick
  | _ => none

/-- "Everything after the first space": the specification-side description
of the argument string the command router passes (`text.split(" ", 1)[1]`),
stated independently of the splitting code. -/
def afterFirstSpace (t : String) : String :=
  String.mk ((t.data.dropWhile (fun c => c != ' ')).drop 1)

/-! # Theorems -/

/-- Pointwise-equal functions give equal `filterMap`s. -/
theorem filterMap_congr_mem {α β : Type} {f g : α → Option β} :
    ∀ {l : List α}, (∀ a ∈ l, f a = g a) → l.filterMap f = l.filterMap g := by
  intro l
  induction l with
  | nil => intro _; rfl
  | cons a rest ih =>
    intro h
    rw [List.filterMap_cons, List.filterMap_cons,
      h a (List.mem_cons_self a rest), ih (fun x hx => h x (List.mem_cons_of_mem a hx))]


/-! ## C6: the nickname validity predicate -/

/-- The allowed-character set of `verifyNick` is exactly the ASCII
letters, the digits and the underscore. -/
theorem mem_NICK_CHARS_iff (c : Char) :
    c ∈ NICK_CHARS ↔ (c.isAlpha = true ∨ c.isDigit = true ∨ c = '_') := by
  constructor
  · intro h
    have hall : NICK_CHARS.all
        (fun c => c.isAlpha || c.isDigit || c == '_') = true := by decide
    have h2 := (List.all_eq_true.mp hall) c h
    simp only [Bool.or_eq_true, beq_iff_eq] at h2
    tauto
  · intro h
    have hp : (c.isAlpha || c.isDigit || c == '_') = true := by
      simp only [Bool.or_eq_true, beq_iff_eq]
      tauto
    have hlt : c.toNat < 123 := by
      simp only [Char.isAlpha, Char.isUpper, Char.isLower, Char.isDigit,
        Bool.or_eq_true, Bool.and_eq_true, decide_eq_true_eq, beq_iff_eq] at hp
      show c.val.toNat < 123
      rcases hp with ((⟨h1, h2⟩ | ⟨h1, h2⟩) | ⟨h1, h2⟩) | h1
      · have h3 : c.val.toNat ≤ 90 := h2
        omega
      · have h3 : c.val.toNat ≤ 122 := h2
        omega
      · have h3 : c.val.toNat ≤ 57 := h2
        omega
      · subst h1; decide
    obtain ⟨n, hn, hlt'⟩ : ∃ n, Char.ofNat n = c ∧ n < 123 :=
      ⟨c.toNat, Char.ofNat_toNat c, hlt⟩
    subst hn
    interval_cases n <;> revert hp <;> decide

/-- C6, counterexample: the claimed specification of `verifyNick` (length
between 1 and 24 and only letters, digits, underscores) fails at the
empty string, which `verifyNick` accepts. -/
theorem verifyNick_spec_cex :
    ¬ (verifyNick "" = true ↔
       (1 ≤ String.length "" ∧ String.length "" ≤ 24 ∧
        ∀ c ∈ "".data, (c.isAlpha = true ∨ c.isDigit = true ∨ c = '_'))) := by
  decide

/-- C6 (amended): `verifyNick s` returns `True` iff `s` is at most 24
characters long and every character of `s` is an ASCII letter, a digit,
or an underscore; there is no lower length bound, so the empty string is
accepted. -/
theorem verifyNick_iff (s : String) :
    verifyNick s = true ↔
      (s.length ≤ 24 ∧
       ∀ c ∈ s.data, (c.isAlpha = true ∨ c.isDigit = true ∨ c = '_')) := by
  unfold verifyNick
  by_cases h : s.length > 24
  · simp only [h, if_pos]
    constructor
    · intro hf; exact absurd hf (by simp)
    · intro ⟨h1, _⟩; omega
  · simp only [h, if_neg, if_false]
    rw [List.all_eq_true]
    constructor
    · intro ha
      refine ⟨by omega, fun c hc => ?_⟩
      have hm : c ∈ NICK_CHARS := List.elem_iff.mp (ha c hc)
      exact (mem_NICK_CHARS_iff c).mp hm
    · intro ⟨_, hchars⟩ c hc
      have hm : c ∈ NICK_CHARS := (mem_NICK_CHARS_iff c).mpr (hchars c hc)
      exact List.elem_eq_true_of_mem hm

/-! ## C8: dictionary lemmas -/

theorem Dict.hasKey_iff_mem {α : Type} (d : List (String × α)) (k : String) :
    Dict.hasKey d k = true ↔ k ∈ d.map Prod.fst := by
  simp [Dict.hasKey, List.any_eq_true, List.mem_map]

theorem Dict.get_eq_none {α : Type} (d : List (String × α)) (k : String)
    (h : k ∉ d.map Prod.fst) : Dict.get d k = none := by
  unfold Dict.get
  have hfind : d.find? (fun p => p.1 == k) = none := by
    apply List.find?_eq_none.mpr
    intro p hp
    simp only [beq_iff_eq]
    intro heq
    exact h (heq ▸ List.mem_map_of_mem Prod.fst hp)
  rw [hfind]
  rfl

theorem Dict.set_fresh {α : Type} (d : List (String × α)) (k : String) (v : α)
    (h : k ∉ d.map Prod.fst) : Dict.set d k v = d ++ [(k, v)] := by
  induction d with
  | nil => rfl
  | cons p rest ih =>
    obtain ⟨k1, v1⟩ := p
    have h1 : (k1 == k) = false := by
      simp only [beq_eq_false_iff_ne, ne_eq]
      intro heq
      exact h (heq ▸ List.mem_map_of_mem Prod.fst (List.mem_cons_self _ rest))
    show (if k1 == k then (k, v) :: rest else (k1, v1) :: Dict.set rest k v)
      = _
    rw [h1]
    simp only [Bool.false_eq_true, if_false, List.cons_append,
      List.cons.injEq, true_and]
    exact ih (fun hm => h (List.mem_cons_of_mem _ hm))

theorem Dict.get_append_fresh {α : Type} (d l : List (String × α)) (k : String)
    (h : k ∉ d.map Prod.fst) : Dict.get (d ++ l) k = Dict.get l k := by
  induction d with
  | nil => rfl
  | cons p rest ih =>
    have h1 : (p.1 == k) = false := by
      simp only [beq_eq_false_iff_ne, ne_eq]
      intro heq
      exact h (heq ▸ List.mem_map_of_mem Prod.fst (List.mem_cons_self p rest))
    unfold Dict.get at ih ⊢
    rw [List.cons_append, List.find?_cons, h1]
    exact ih (fun hm => h (List.mem_cons_of_mem _ hm))

theorem Dict.del_append_fresh {α : Type} (d l : List (String × α)) (k : String)
    (h : k ∉ d.map Prod.fst) : Dict.del (d ++ l) k = d ++ Dict.del l k := by
  induction d with
  | nil => rfl
  | cons p rest ih =>
    obtain ⟨k1, v1⟩ := p
    have h1 : (k1 == k) = false := by
      simp only [beq_eq_false_iff_ne, ne_eq]
      intro heq
      exact h (heq ▸ List.mem_map_of_mem Prod.fst (List.mem_cons_self _ rest))
    show (if k1 == k then rest ++ l else (k1, v1) :: Dict.del (rest ++ l) k)
      = _
    rw [h1]
    simp only [Bool.false_eq_true, if_false, List.cons_append,
      List.cons.injEq, true_and]
    exact ih (fun hm => h (List.mem_cons_of_mem _ hm))

/-- With unique keys, `find?` on a member's key returns that member. -/
theorem Dict.find?_self {α : Type} (d : List (String × α))
    (hkeys : (d.map Prod.fst).Nodup) (p : String × α) (hmem : p ∈ d) :
    d.find? (fun q => q.1 == p.1) = some p := by
  induction d with
  | nil => exact absurd hmem (List.not_mem_nil p)
  | cons q rest ih =>
    rw [List.map_cons, List.nodup_cons] at hkeys
    rcases List.mem_cons.mp hmem with rfl | hmem2
    · rw [List.find?_cons, beq_self_eq_true]
    · have hne : (q.1 == p.1) = false := by
        simp only [beq_eq_false_iff_ne, ne_eq]
        intro heq
        exact hkeys.1 (heq ▸ List.mem_map_of_mem Prod.fst hmem2)
      rw [List.find?_cons, hne]
      exact ih hkeys.2 hmem2

theorem Dict.get_of_mem {α : Type} (d : List (String × α))
    (hkeys : (d.map Prod.fst).Nodup) (p : String × α) (hmem : p ∈ d) :
    Dict.get d p.1 = some p.2 := by
  unfold Dict.get
  rw [Dict.find?_self d hkeys p hmem]
  rfl

theorem Dict.get_cons {α : Type} (k1 : String) (v1 : α)
    (rest : List (String × α)) (k : String) :
    Dict.get ((k1, v1) :: rest) k =
      if k1 == k then some v1 else Dict.get rest k := by
  unfold Dict.get
  rw [List.find?_cons]
  cases h : k1 == k
  · simp [h]
  · simp [h]

/-- With unique keys, setting an existing key rewrites that entry in
place. -/
theorem Dict.set_mem_map {α : Type} (d : List (String × α)) (k : String)
    (v : α) (hkeys : (d.map Prod.fst).Nodup) (hk : k ∈ d.map Prod.fst) :
    Dict.set d k v = d.map (fun p => if p.1 == k then (k, v) else p) := by
  induction d with
  | nil => exact absurd hk (List.not_mem_nil k)
  | cons q rest ih =>
    obtain ⟨k1, v1⟩ := q
    rw [List.map_cons, List.nodup_cons] at hkeys
    by_cases hq : k1 = k
    · subst hq
      show (if k1 == k1 then (k1, v) :: rest else
          (k1, v1) :: Dict.set rest k1 v) = _
      rw [beq_self_eq_true, if_pos rfl, List.map_cons]
      show _ = (if k1 == k1 then (k1, v) else (k1, v1)) ::
        rest.map (fun p => if p.1 == k1 then (k1, v) else p)
      rw [beq_self_eq_true, if_pos rfl]
      congr 1
      have hid : ∀ p ∈ rest, (if p.1 == k1 then (k1, v) else p) = p := by
        intro p hp
        have hne : (p.1 == k1) = false := by
          simp only [beq_eq_false_iff_ne, ne_eq]
          intro heq
          have hm := List.mem_map_of_mem Prod.fst hp
          rw [heq] at hm
          exact hkeys.1 hm
        rw [hne]
        simp
      rw [List.map_congr_left hid]
      simp
    · have hq2 : (k1 == k) = false := by simpa using hq
      show (if k1 == k then (k, v) :: rest else
          (k1, v1) :: Dict.set rest k v) = _
      rw [hq2, List.map_cons]
      show (k1, v1) :: Dict.set rest k v =
        (if k1 == k then (k, v) else (k1, v1)) ::
          rest.map (fun p => if p.1 == k then (k, v) else p)
      rw [hq2]
      simp only [Bool.false_eq_true, if_false, List.cons.injEq, true_and]
      refine ih hkeys.2 ?_
      rcases List.mem_cons.mp hk with h | h
      · exact absurd h.symm hq
      · exact h

/-- Key-preserving maps keep the key list. -/
theorem Dict.keys_map_snd {α β : Type} (d : List (String × α))
    (f : String × α → β) :
    (d.map (fun p => (p.1, f p))).map Prod.fst = d.map Prod.fst := by
  rw [List.map_map]
  rfl

/-- Lookup through a key-preserving map. -/
theorem Dict.get_map_snd {α β : Type} (d : List (String × α))
    (f : String × α → β) (k : String) :
    Dict.get (d.map (fun p => (p.1, f p))) k =
      (d.find? (fun p => p.1 == k)).map f := by
  unfold Dict.get
  rw [List.find?_map]
  rw [show ((fun p : String × β => p.1 == k) ∘ fun p : String × α => (p.1, f p))
      = fun p : String × α => p.1 == k from rfl]
  cases d.find? (fun p => p.1 == k) <;> rfl

/-! ## C8: effect of an initializer's registrations -/

/-- Registration actions never touch the plugin records. -/
theorem applyActions_loaded (reg : BotRegistry) (acts : List RegAction) :
    (applyActions reg acts).loaded_plugins = reg.loaded_plugins := by
  induction acts generalizing reg with
  | nil => rfl
  | cons a rest ih =>
    rw [applyActions, List.foldl_cons]
    cases a with
    | cmd p f => exact ih (registerCommand reg p f)
    | handler s f => exact ih (registerEventFunction reg s f)

/-- With fresh, pairwise-distinct prefixes, the command dict after the
initializer is the old dict with the new entries appended in
registration order. -/
theorem applyActions_commands (reg : BotRegistry) (acts : List RegAction)
    (hfresh : ∀ p f, RegAction.cmd p f ∈ acts → p ∉ reg.commands.map Prod.fst)
    (hdist : ((cmdAdds acts).map Prod.fst).Nodup) :
    (applyActions reg acts).commands = reg.commands ++ cmdAdds acts := by
  induction acts generalizing reg with
  | nil => simp [applyActions, cmdAdds]
  | cons a rest ih =>
    cases a with
    | cmd p f =>
      have hp : p ∉ reg.commands.map Prod.fst :=
        hfresh p f (List.mem_cons_self _ rest)
      have hset : (registerCommand reg p f).commands =
          reg.commands ++ [(p, f)] := by
        unfold registerCommand
        exact Dict.set_fresh reg.commands p f hp
      have hdist2 : ((p, f) :: cmdAdds rest).map Prod.fst |>.Nodup := hdist
      rw [List.map_cons, List.nodup_cons] at hdist2
      show (applyActions (registerCommand reg p f) rest).commands =
        reg.commands ++ ((p, f) :: cmdAdds rest)
      rw [ih (registerCommand reg p f)
        (by
          intro q g hq
          rw [hset, List.map_append]
          intro hmem
          rcases List.mem_append.mp hmem with h | h
          · exact hfresh q g (List.mem_cons_of_mem _ hq) h
          · simp only [List.map_cons, List.map_nil,
              List.mem_singleton] at h
            subst h
            have hmem2 : (q, g) ∈ cmdAdds rest := by
              unfold cmdAdds
              exact List.mem_filterMap.mpr ⟨RegAction.cmd q g, hq, rfl⟩
            have hmm : (q, g).1 ∈ (cmdAdds rest).map Prod.fst :=
              List.mem_map_of_mem Prod.fst hmem2
            exact hdist2.1 hmm)
        hdist2.2, hset, List.append_assoc, List.singleton_append]
    | handler s f =>
      show (applyActions (registerEventFunction reg s f) rest).commands =
        reg.commands ++ cmdAdds rest
      have hefs : (registerEventFunction reg s f).commands = reg.commands :=
        rfl
      rw [ih (registerEventFunction reg s f)
        (by
          intro q g hq
          rw [hefs]
          exact hfresh q g (List.mem_cons_of_mem _ hq))
        hdist, hefs]

/-- With unique selector keys and all handler selectors already present,
the initializer appends each handler to its selector's list in place. -/
theorem applyActions_efs (reg : BotRegistry) (acts : List RegAction)
    (hkeys : (reg.event_functions.map Prod.fst).Nodup)
    (hsel : ∀ s f, RegAction.handler s f ∈ acts →
      s ∈ reg.event_functions.map Prod.fst) :
    (applyActions reg acts).event_functions =
      reg.event_functions.map
        (fun p => (p.1, p.2 ++ handlerAdds acts p.1)) := by
  induction acts generalizing reg with
  | nil =>
    show reg.event_functions = _
    have hpt : ∀ p ∈ reg.event_functions,
        (p.1, p.2 ++ handlerAdds [] p.1) = p := by
      intro p _
      simp [handlerAdds]
    rw [List.map_congr_left hpt]
    simp
  | cons a rest ih =>
    cases a with
    | cmd p f =>
      show (applyActions (registerCommand reg p f) rest).event_functions = _
      have hefs : (registerCommand reg p f).event_functions =
          reg.event_functions := rfl
      rw [ih (registerCommand reg p f) (hefs ▸ hkeys)
        (fun s g hg => hefs ▸ hsel s g (List.mem_cons_of_mem _ hg)), hefs]
      rfl
    | handler s f =>
      show (applyActions (registerEventFunction reg s f) rest).event_functions
        = _
      have hks : s ∈ reg.event_functions.map Prod.fst :=
        hsel s f (List.mem_cons_self _ rest)
      obtain ⟨q, hq, hq1⟩ := List.mem_map.mp hks
      have hget : Dict.get reg.event_functions s = some q.2 := by
        rw [← hq1]
        exact Dict.get_of_mem reg.event_functions hkeys q hq
      have hset : (registerEventFunction reg s f).event_functions =
          reg.event_functions.map
            (fun p => (p.1, p.2 ++ if p.1 == s then [f] else [])) := by
        unfold registerEventFunction
        rw [hget]
        simp only []
        rw [Dict.set_mem_map reg.event_functions s (q.2 ++ [f]) hkeys hks]
        apply List.map_congr_left
        intro r hr
        by_cases hrs : r.1 = s
        · have hbeq : (r.1 == s) = true := by simpa using hrs
          rw [hbeq]
          simp only [if_true]
          have hgr : Dict.get reg.event_functions r.1 = some r.2 :=
            Dict.get_of_mem reg.event_functions hkeys r hr
          rw [hrs, hget] at hgr
          have hq2 : q.2 = r.2 := Option.some.inj hgr
          rw [hq2, ← hrs]
        · have hbeq : (r.1 == s) = false := by simpa using hrs
          rw [hbeq]
          simp
      have hkeys2 : ((registerEventFunction reg s f).event_functions.map
          Prod.fst).Nodup := by
        rw [hset, Dict.keys_map_snd]
        exact hkeys
      rw [ih (registerEventFunction reg s f) hkeys2
        (fun s2 g hg => by
          rw [hset, Dict.keys_map_snd]
          exact hsel s2 g (List.mem_cons_of_mem _ hg)), hset, List.map_map]
      apply List.map_congr_left
      intro r _
      show (r.1, (r.2 ++ if r.1 == s then [f] else []) ++
          handlerAdds rest r.1) =
        (r.1, r.2 ++ handlerAdds (RegAction.handler s f :: rest) r.1)
      rw [List.append_assoc]
      congr 1
      congr 1
      show (if r.1 == s then [f] else []) ++ handlerAdds rest r.1 =
        handlerAdds (RegAction.handler s f :: rest) r.1
      by_cases hrs : r.1 = s
      · have h1 : (r.1 == s) = true := by simpa using hrs
        have h2 : (s == r.1) = true := by simpa using hrs.symm
        rw [h1]
        unfold handlerAdds
        rw [List.filterMap_cons]
        simp only [h2, if_true]
        rfl
      · have h1 : (r.1 == s) = false := by simpa using hrs
        have h2 : (s == r.1) = false := by
          simpa using (fun h => hrs h.symm)
        rw [h1]
        unfold handlerAdds
        rw [List.filterMap_cons]
        simp only [h2, Bool.false_eq_true, if_false]
        rfl

/-! ## C8: effect of `unload_plugin` -/

theorem removeAll_nil (l : List Handler) : removeAll [] l = l := rfl

/-- Removing an appended block of handlers, none of which was already in
the list, restores the original list. -/
theorem removeAll_append (A l : List Handler) (h : ∀ a ∈ A, a ∉ l) :
    removeAll A (l ++ A) = l := by
  induction A generalizing l with
  | nil => simp [removeAll]
  | cons a A2 ih =>
    have hstep : removeAll (a :: A2) (l ++ a :: A2) =
        removeAll A2 (if (l ++ a :: A2).contains a then
          (l ++ a :: A2).erase a else (l ++ a :: A2)) := rfl
    rw [hstep]
    have hmem : (l ++ a :: A2).contains a = true :=
      List.elem_eq_true_of_mem
        (List.mem_append.mpr (Or.inr (List.mem_cons_self a A2)))
    rw [hmem, if_pos rfl,
      List.erase_append_right _ (h a (List.mem_cons_self a A2)),
      List.erase_cons_head]
    exact ih l (fun x hx => h x (List.mem_cons_of_mem a hx))

/-- Deleting the freshly appended command keys restores the original
command dict. -/
theorem unloadCommands_restore (adds base : List (String × Handler))
    (hfresh : ∀ a ∈ adds, a.1 ∉ base.map Prod.fst)
    (hdist : (adds.map Prod.fst).Nodup) :
    (adds.map Prod.fst).foldl unloadCommandsStep (base ++ adds) = base := by
  induction adds with
  | nil => simp
  | cons a rest ih =>
    obtain ⟨p, f⟩ := a
    rw [List.map_cons, List.nodup_cons] at hdist
    rw [List.map_cons, List.foldl_cons]
    have hstep : unloadCommandsStep (base ++ (p, f) :: rest) p =
        base ++ rest := by
      unfold unloadCommandsStep
      have hhk : Dict.hasKey (base ++ (p, f) :: rest) p = true := by
        rw [Dict.hasKey_iff_mem, List.map_append, List.map_cons]
        exact List.mem_append.mpr (Or.inr (List.mem_cons_self p _))
      rw [hhk, if_pos rfl,
        Dict.del_append_fresh base ((p, f) :: rest) p
          (hfresh (p, f) (List.mem_cons_self _ rest))]
      congr 1
      show (if p == p then rest else (p, f) :: Dict.del rest p) = rest
      rw [beq_self_eq_true, if_pos rfl]
    rw [hstep]
    exact ih (fun x hx => hfresh x (List.mem_cons_of_mem _ hx)) hdist.2

/-- Keys of a key-preserving `filterMap` form a sublist of the original
keys. -/
theorem keys_filterMap_sublist {α : Type}
    (d : List (String × α)) (F : String × α → Option (String × α))
    (hF : ∀ q r, F q = some r → r.1 = q.1) :
    ((d.filterMap F).map Prod.fst).Sublist (d.map Prod.fst) := by
  induction d with
  | nil => simp
  | cons q rest ih =>
    rw [List.filterMap_cons]
    cases hFq : F q with
    | none =>
      rw [List.map_cons]
      exact ih.trans (List.sublist_cons_self _ _)
    | some r =>
      rw [List.map_cons, List.map_cons, hF q r hFq]
      exact ih.cons₂ q.1

/-- Looking up a selector in the recorded-additions dict yields exactly
that selector's added handlers (empty when nothing was recorded). -/
theorem get_filterMap_adds (d : List (String × List Handler))
    (A : String → List Handler)
    (hkeys : (d.map Prod.fst).Nodup) (s : String)
    (hs : s ∈ d.map Prod.fst) :
    (Dict.get (d.filterMap (fun q =>
        if (A q.1).isEmpty then none else some (q.1, A q.1))) s).getD []
      = A s := by
  induction d with
  | nil => exact absurd hs (List.not_mem_nil s)
  | cons q rest ih =>
    rw [List.map_cons, List.nodup_cons] at hkeys
    rw [List.filterMap_cons]
    by_cases hqs : q.1 = s
    · have hrest : s ∉ (rest.filterMap (fun q =>
          if (A q.1).isEmpty then none
          else some (q.1, A q.1))).map Prod.fst := by
        intro hmem
        have hsub := keys_filterMap_sublist rest
          (fun q => if (A q.1).isEmpty then none else some (q.1, A q.1))
          (by
            intro a r hr
            simp only [] at hr
            by_cases he : (A a.1).isEmpty
            · rw [if_pos he] at hr
              exact absurd hr (by simp)
            · rw [if_neg he] at hr
              exact (Option.some.inj hr) ▸ rfl)
        exact hkeys.1 (hqs ▸ hsub.mem hmem)
      by_cases hAe : (A q.1).isEmpty
      · rw [if_pos hAe]
        rw [Dict.get_eq_none _ s hrest]
        have hAs : A s = [] := by
          rw [← hqs]
          exact List.isEmpty_iff.mp hAe
        rw [hAs]
        rfl
      · rw [if_neg hAe]
        have hbeq : (q.1 == s) = true := by simpa using hqs
        rw [Dict.get_cons, hbeq, if_pos rfl, Option.getD_some, hqs]
    · have hbeq : (q.1 == s) = false := by simpa using hqs
      have hs2 : s ∈ rest.map Prod.fst := by
        rcases List.mem_cons.mp (List.map_cons Prod.fst q rest ▸ hs) with
          h | h
        · exact absurd h.symm hqs
        · exact h
      by_cases hAe : (A q.1).isEmpty
      · rw [if_pos hAe]
        exact ih hkeys.2 hs2
      · rw [if_neg hAe]
        rw [Dict.get_cons, hbeq]
        simp only [Bool.false_eq_true, if_false]
        exact ih hkeys.2 hs2

/-- The handler-removal fold of `unload_plugin`: with unique selector
keys, a record whose selectors all exist and are pairwise distinct, every
selector's list has the recorded handlers removed. -/
theorem unload_fold_map (R : List (String × List Handler)) :
    ∀ (d : List (String × List Handler)),
    (d.map Prod.fst).Nodup →
    (∀ q ∈ R, q.1 ∈ d.map Prod.fst) →
    ((R.map Prod.fst).Nodup) →
    R.foldl unloadHandlersStep d =
      d.map (fun p => (p.1, removeAll ((Dict.get R p.1).getD []) p.2)) := by
  induction R with
  | nil =>
    intro d _ _ _
    rw [List.foldl_nil]
    have hpt : ∀ p ∈ d,
        (p.1, removeAll ((Dict.get ([] : List (String × List Handler))
          p.1).getD []) p.2) = p := by
      intro p _
      rw [show Dict.get ([] : List (String × List Handler)) p.1 = none
          from rfl]
      rfl
    rw [List.map_congr_left hpt]
    simp
  | cons a rest ih =>
    intro d hkeys hRsub hRdist
    obtain ⟨s0, hs0⟩ := a
    rw [List.map_cons, List.nodup_cons] at hRdist
    have hks : s0 ∈ d.map Prod.fst := hRsub (s0, hs0) (List.mem_cons_self _ _)
    obtain ⟨q, hq, hq1⟩ := List.mem_map.mp hks
    have hget : Dict.get d s0 = some q.2 := by
      rw [← hq1]
      exact Dict.get_of_mem d hkeys q hq
    have hstep : unloadHandlersStep d (s0, hs0) =
        d.map (fun p =>
          (p.1, if p.1 == s0 then removeAll hs0 p.2 else p.2)) := by
      unfold unloadHandlersStep
      rw [show Dict.hasKey d s0 = true from (Dict.hasKey_iff_mem d s0).mpr hks,
        if_pos rfl, hget]
      simp only []
      rw [Dict.set_mem_map d s0 (removeAll hs0 q.2) hkeys hks]
      apply List.map_congr_left
      intro r hr
      by_cases hrs : r.1 = s0
      · have hbeq : (r.1 == s0) = true := by simpa using hrs
        rw [hbeq]
        simp only [if_true]
        have hgr : Dict.get d r.1 = some r.2 := Dict.get_of_mem d hkeys r hr
        rw [hrs, hget] at hgr
        have hq2 : q.2 = r.2 := Option.some.inj hgr
        rw [hq2, ← hrs]
      · have hbeq : (r.1 == s0) = false := by simpa using hrs
        rw [hbeq]
        simp
    rw [List.foldl_cons, hstep,
      ih (d.map (fun p => (p.1, if p.1 == s0 then removeAll hs0 p.2 else p.2)))
        (by rw [Dict.keys_map_snd]; exact hkeys)
        (by
          intro r hrR
          rw [Dict.keys_map_snd]
          exact hRsub r (List.mem_cons_of_mem _ hrR))
        hRdist.2,
      List.map_map]
    apply List.map_congr_left
    intro r _
    show (r.1, removeAll ((Dict.get rest r.1).getD [])
        (if r.1 == s0 then removeAll hs0 r.2 else r.2)) =
      (r.1, removeAll ((Dict.get ((s0, hs0) :: rest) r.1).getD []) r.2)
    have hgetcons : Dict.get ((s0, hs0) :: rest) r.1 =
        if s0 == r.1 then some hs0 else Dict.get rest r.1 :=
      Dict.get_cons s0 hs0 rest r.1
    by_cases hrs : r.1 = s0
    · have h1 : (r.1 == s0) = true := by simpa using hrs
      have h2 : (s0 == r.1) = true := by simpa using hrs.symm
      rw [h1, hgetcons, h2]
      simp only [if_true, Option.getD_some]
      have hnone : Dict.get rest r.1 = none := by
        apply Dict.get_eq_none
        rw [hrs]
        exact hRdist.1
      rw [hnone]
      rfl
    · have h1 : (r.1 == s0) = false := by simpa using hrs
      have h2 : (s0 == r.1) = false := by simpa using (fun h => hrs h.symm)
      rw [h1, hgetcons, h2]
      simp

/-! ## C8: what `load_plugin` stores -/

theorem cmdAdds_mem (acts : List RegAction) (p : String) (f : Handler)
    (h : (p, f) ∈ cmdAdds acts) : RegAction.cmd p f ∈ acts := by
  unfold cmdAdds at h
  obtain ⟨a, ha, heq⟩ := List.mem_filterMap.mp h
  cases a with
  | cmd p2 f2 =>
    obtain ⟨h1, h2⟩ := Prod.mk.injEq .. ▸ Option.some.inj heq
    exact h1 ▸ h2 ▸ ha
  | handler s g => exact absurd heq (by simp)

theorem loadPlugin_commands (reg : BotRegistry) (name : String)
    (acts : List RegAction)
    (hfreshC : ∀ p f, RegAction.cmd p f ∈ acts →
      p ∉ reg.commands.map Prod.fst)
    (hdistC : ((cmdAdds acts).map Prod.fst).Nodup) :
    (loadPlugin reg name acts).commands = reg.commands ++ cmdAdds acts := by
  show (applyActions reg acts).commands = _
  exact applyActions_commands reg acts hfreshC hdistC

theorem loadPlugin_efs (reg : BotRegistry) (name : String)
    (acts : List RegAction)
    (hkeysE : (reg.event_functions.map Prod.fst).Nodup)
    (hselE : ∀ s f, RegAction.handler s f ∈ acts →
      s ∈ reg.event_functions.map Prod.fst) :
    (loadPlugin reg name acts).event_functions =
      reg.event_functions.map
        (fun p => (p.1, p.2 ++ handlerAdds acts p.1)) := by
  show (applyActions reg acts).event_functions = _
  exact applyActions_efs reg acts hkeysE hselE

/-- The record stored for the plugin holds exactly the diff: the new
command prefixes (post-set minus pre-set, in insertion order) and, per
selector that grew, the tail of its handler list beyond the snapshot
length. -/
theorem loadPlugin_record (reg : BotRegistry) (name : String)
    (acts : List RegAction)
    (hkeysE : (reg.event_functions.map Prod.fst).Nodup)
    (hfreshC : ∀ p f, RegAction.cmd p f ∈ acts →
      p ∉ reg.commands.map Prod.fst)
    (hdistC : ((cmdAdds acts).map Prod.fst).Nodup)
    (hselE : ∀ s f, RegAction.handler s f ∈ acts →
      s ∈ reg.event_functions.map Prod.fst) :
    (loadPlugin reg name acts).loaded_plugins =
      Dict.set reg.loaded_plugins name
        ⟨(cmdAdds acts).map Prod.fst, recordedHandlers reg acts⟩ := by
  have hC := applyActions_commands reg acts hfreshC hdistC
  have hE := applyActions_efs reg acts hkeysE hselE
  have hL := applyActions_loaded reg acts
  show Dict.set (applyActions reg acts).loaded_plugins name
      ⟨((applyActions reg acts).commands.map (fun p => p.1)).filter
          (fun c => !((reg.commands.map (fun p => p.1)).contains c)),
        (applyActions reg acts).event_functions.filterMap (fun p =>
          if p.2.length >
              (Dict.get (reg.event_functions.map
                (fun p => (p.1, p.2.length))) p.1).getD 0 then
            some (p.1, p.2.drop
              ((Dict.get (reg.event_functions.map
                (fun p => (p.1, p.2.length))) p.1).getD 0))
          else none)⟩
    = _
  rw [hL]
  have hNC : ((applyActions reg acts).commands.map (fun p => p.1)).filter
      (fun c => !((reg.commands.map (fun p => p.1)).contains c)) =
      (cmdAdds acts).map Prod.fst := by
    rw [hC, List.map_append, List.filter_append]
    have hl : ((reg.commands.map (fun p => p.1)).filter
        (fun c => !((reg.commands.map (fun p => p.1)).contains c))) = [] := by
      apply List.filter_eq_nil_iff.mpr
      intro b hb
      simp only [List.contains, List.elem_eq_mem, Bool.not_eq_true,
        Bool.not_eq_false, decide_eq_true_eq]
      simpa using hb
    have hr : (((cmdAdds acts).map (fun p => p.1)).filter
        (fun c => !((reg.commands.map (fun p => p.1)).contains c))) =
        (cmdAdds acts).map (fun p => p.1) := by
      apply List.filter_eq_self.mpr
      intro a ha
      obtain ⟨⟨p, g⟩, hpg, hpa⟩ := List.mem_map.mp ha
      have hfr : p ∉ reg.commands.map Prod.fst :=
        hfreshC p g (cmdAdds_mem acts p g hpg)
      subst hpa
      simpa using hfr
    rw [hl, hr, List.nil_append]
  have hNH : (applyActions reg acts).event_functions.filterMap (fun p =>
      if p.2.length >
          (Dict.get (reg.event_functions.map
            (fun p => (p.1, p.2.length))) p.1).getD 0 then
        some (p.1, p.2.drop
          ((Dict.get (reg.event_functions.map
            (fun p => (p.1, p.2.length))) p.1).getD 0))
      else none) = recordedHandlers reg acts := by
    rw [hE, List.filterMap_map]
    unfold recordedHandlers
    apply filterMap_congr_mem
    intro q hq
    have hbef : Dict.get (reg.event_functions.map
        (fun p => (p.1, p.2.length))) q.1 = some q.2.length := by
      rw [show (fun p : String × List Handler => (p.1, p.2.length)) =
          (fun p : String × List Handler =>
            (p.1, (fun r : String × List Handler => r.2.length) p))
          from rfl,
        Dict.get_map_snd, Dict.find?_self reg.event_functions hkeysE q hq]
      rfl
    show (if (q.2 ++ handlerAdds acts q.1).length >
        (Dict.get (reg.event_functions.map
          (fun p => (p.1, p.2.length))) q.1).getD 0 then
        some (q.1, (q.2 ++ handlerAdds acts q.1).drop
          ((Dict.get (reg.event_functions.map
            (fun p => (p.1, p.2.length))) q.1).getD 0))
      else none) = _
    rw [hbef, Option.getD_some]
    by_cases hA : handlerAdds acts q.1 = []
    · rw [hA]
      simp
    · have hgt : (q.2 ++ handlerAdds acts q.1).length > q.2.length := by
        rw [List.length_append]
        have := List.length_pos.mpr hA
        omega
      rw [if_pos hgt, if_neg (by simpa [List.isEmpty_iff] using hA)]
      congr 1
      congr 1
      rw [List.drop_left]
  rw [hNC, hNH]

/-- C8: for a plugin whose initializer succeeds after registering fresh
commands and handlers on existing selectors, `load_plugin` records
exactly the diff — the new command prefixes (post-set minus pre-set) and,
per selector, the tail of its handler list beyond its pre-load length —
and a subsequent `unload_plugin` removes exactly those commands and
handlers and deletes the record, restoring the whole registry (commands,
per-selector handler lists, and the records of every other plugin id)
to its pre-load state. -/
theorem pluginLoadUnload_roundtrip (reg : BotRegistry) (name : String)
    (acts : List RegAction)
    (hkeysE : (reg.event_functions.map Prod.fst).Nodup)
    (hname : Dict.hasKey reg.loaded_plugins name = false)
    (hfreshC : ∀ p f, RegAction.cmd p f ∈ acts →
      p ∉ reg.commands.map Prod.fst)
    (hdistC : ((cmdAdds acts).map Prod.fst).Nodup)
    (hselE : ∀ s f, RegAction.handler s f ∈ acts →
      s ∈ reg.event_functions.map Prod.fst)
    (hfreshH : ∀ p ∈ reg.event_functions,
      ∀ f ∈ handlerAdds acts p.1, f ∉ p.2) :
    (Dict.get (loadPlugin reg name acts).loaded_plugins name =
      some ⟨(cmdAdds acts).map Prod.fst, recordedHandlers reg acts⟩) ∧
    unloadPlugin (loadPlugin reg name acts) name = reg := by
  have hnameMem : name ∉ reg.loaded_plugins.map Prod.fst := by
    intro hm
    rw [(Dict.hasKey_iff_mem _ _).mpr hm] at hname
    exact absurd hname (by simp)
  have h1 := loadPlugin_commands reg name acts hfreshC hdistC
  have h2 := loadPlugin_efs reg name acts hkeysE hselE
  have h3 := loadPlugin_record reg name acts hkeysE hfreshC hdistC hselE
  have hgetrec : Dict.get (loadPlugin reg name acts).loaded_plugins name =
      some ⟨(cmdAdds acts).map Prod.fst, recordedHandlers reg acts⟩ := by
    rw [h3, Dict.set_fresh _ _ _ hnameMem,
      Dict.get_append_fresh _ _ _ hnameMem, Dict.get_cons]
    simp
  refine ⟨hgetrec, ?_⟩
  unfold unloadPlugin
  rw [hgetrec]
  show BotRegistry.mk
      (((cmdAdds acts).map Prod.fst).foldl unloadCommandsStep
        (loadPlugin reg name acts).commands)
      ((recordedHandlers reg acts).foldl unloadHandlersStep
        (loadPlugin reg name acts).event_functions)
      (Dict.del (loadPlugin reg name acts).loaded_plugins name)
    = reg
  rw [h1, h2, h3]
  have hfreshAdds : ∀ a ∈ cmdAdds acts, a.1 ∉ reg.commands.map Prod.fst := by
    intro a ha
    obtain ⟨p, f⟩ := a
    exact hfreshC p f (cmdAdds_mem acts p f ha)
  rw [unloadCommands_restore (cmdAdds acts) reg.commands hfreshAdds hdistC]
  have hkeysM : ((reg.event_functions.map
      (fun p => (p.1, p.2 ++ handlerAdds acts p.1))).map Prod.fst).Nodup := by
    rw [Dict.keys_map_snd]
    exact hkeysE
  have hRsub : ∀ q ∈ recordedHandlers reg acts,
      q.1 ∈ (reg.event_functions.map
        (fun p => (p.1, p.2 ++ handlerAdds acts p.1))).map Prod.fst := by
    intro q hqR
    rw [Dict.keys_map_snd]
    unfold recordedHandlers at hqR
    obtain ⟨r, hr, heq⟩ := List.mem_filterMap.mp hqR
    by_cases he : (handlerAdds acts r.1).isEmpty
    · rw [if_pos he] at heq
      exact absurd heq (by simp)
    · rw [if_neg he] at heq
      have hq1 : q.1 = r.1 := by
        rw [← Option.some.inj heq]
      rw [hq1]
      exact List.mem_map_of_mem Prod.fst hr
  have hRdist : ((recordedHandlers reg acts).map Prod.fst).Nodup := by
    unfold recordedHandlers
    have hsub := keys_filterMap_sublist reg.event_functions
      (fun q => if (handlerAdds acts q.1).isEmpty then none
        else some (q.1, handlerAdds acts q.1))
      (by
        intro a r hr
        simp only [] at hr
        by_cases he : (handlerAdds acts a.1).isEmpty
        · rw [if_pos he] at hr
          exact absurd hr (by simp)
        · rw [if_neg he] at hr
          exact (Option.some.inj hr) ▸ rfl)
    exact hkeysE.sublist hsub
  rw [unload_fold_map (recordedHandlers reg acts)
    (reg.event_functions.map (fun p => (p.1, p.2 ++ handlerAdds acts p.1)))
    hkeysM hRsub hRdist, List.map_map]
  have hpt : ∀ r ∈ reg.event_functions,
      ((fun p : String × List Handler =>
        (p.1, removeAll ((Dict.get (recordedHandlers reg acts) p.1).getD [])
          p.2)) ∘
       (fun p : String × List Handler =>
        (p.1, p.2 ++ handlerAdds acts p.1))) r = r := by
    intro r hr
    show (r.1, removeAll
        ((Dict.get (recordedHandlers reg acts) r.1).getD [])
        (r.2 ++ handlerAdds acts r.1)) = r
    have hA : (Dict.get (recordedHandlers reg acts) r.1).getD [] =
        handlerAdds acts r.1 := by
      unfold recordedHandlers
      exact get_filterMap_adds reg.event_functions (handlerAdds acts) hkeysE
        r.1 (List.mem_map_of_mem Prod.fst hr)
    rw [hA, removeAll_append _ _ (hfreshH r hr)]
  rw [List.map_congr_left hpt]
  have hdel : Dict.del [(name, (⟨(cmdAdds acts).map Prod.fst,
      recordedHandlers reg acts⟩ : PluginRecord))] name = [] := by
    simp [Dict.del]
  rw [Dict.set_fresh _ _ _ hnameMem, Dict.del_append_fresh _ _ _ hnameMem,
    hdel, List.append_nil]
  have hmapid : reg.event_functions.map (fun a => a) =
      reg.event_functions := by simp
  rw [hmapid]

/-- C8 witness: a plugin registering two commands and one global handler
round-trips on a registry that already holds a command, the internal
global handler, and another plugin's record. -/
theorem pluginLoadUnload_roundtrip_witness :
    unloadPlugin
      (loadPlugin
        ⟨[("!old", ⟨10, true, false⟩)],
         [("__GLOBAL__", [⟨0, true, false⟩])],
         [("other", ⟨["!old"], []⟩)]⟩
        "x"
        [.cmd "!a" ⟨21, true, false⟩, .cmd "!b" ⟨22, true, false⟩,
         .handler "__GLOBAL__" ⟨23, true, false⟩])
      "x" =
    ⟨[("!old", ⟨10, true, false⟩)],
     [("__GLOBAL__", [⟨0, true, false⟩])],
     [("other", ⟨["!old"], []⟩)]⟩ :=
  (pluginLoadUnload_roundtrip
    ⟨[("!old", ⟨10, true, false⟩)],
     [("__GLOBAL__", [⟨0, true, false⟩])],
     [("other", ⟨["!old"], []⟩)]⟩
    "x"
    [.cmd "!a" ⟨21, true, false⟩, .cmd "!b" ⟨22, true, false⟩,
     .handler "__GLOBAL__" ⟨23, true, false⟩]
    (by decide) (by decide)
    (by
      intro p f h
      simp only [List.mem_cons, List.not_mem_nil, or_false] at h
      rcases h with h | h | h
      · obtain ⟨h1, h2⟩ := RegAction.cmd.injEq .. ▸ h
        subst h1
        decide
      · obtain ⟨h1, h2⟩ := RegAction.cmd.injEq .. ▸ h
        subst h1
        decide
      · exact absurd h (by simp))
    (by decide)
    (by
      intro s f h
      simp only [List.mem_cons, List.not_mem_nil, or_false] at h
      rcases h with h | h | h
      · exact absurd h (by simp)
      · exact absurd h (by simp)
      · obtain ⟨h1, h2⟩ := RegAction.handler.injEq .. ▸ h
        subst h1
        decide)
    (by decide)).2

/-! ## C4: handler failure isolation -/

/-- C4, counterexample: one raising suspend-capable handler kills the
receive loop.  Its exception is not caught anywhere (`_run_events` only
guards task *creation*), so the `asyncio.TaskGroup` cancels the loop at
the next `websocket.recv()`: the second envelope is never dispatched and
nothing is logged. -/
theorem asyncHandler_kills_loop_cex :
    (runLoop "b" true [("__GLOBAL__", [⟨0, true, true⟩])]
        [[("cmd", JVal.str "zzz")], [("cmd", JVal.str "zzz")]]).aborted = true ∧
    (runLoop "b" true [("__GLOBAL__", [⟨0, true, true⟩])]
        [[("cmd", JVal.str "zzz")], [("cmd", JVal.str "zzz")]]).invoked = [0] ∧
    (runLoop "b" true [("__GLOBAL__", [⟨0, true, true⟩])]
        [[("cmd", JVal.str "zzz")], [("cmd", JVal.str "zzz")]]).log = [] ∧
    (runLoop "b" true [("__GLOBAL__", [⟨0, true, true⟩])]
        [[("cmd", JVal.str "zzz")], [("cmd", JVal.str "zzz")]]).dispatched.length
      = 1 := by
  exact ⟨rfl, rfl, rfl, rfl⟩

/-- The effect of dispatching one selector's worth of synchronous
handlers: every handler runs in list order (a raising one is logged and
does not stop its siblings), and nothing else of the state changes. -/
theorem runEvents_sync_aux (L : List Handler) (st : LoopState)
    (hsync : ∀ h ∈ L, h.isAsync = false) :
    L.foldl runEventsStep st =
      { st with
        invoked := st.invoked ++ L.map (fun h => h.hid),
        log := st.log ++ (L.filter (fun h => h.raises)).map (fun h => h.hid) } := by
  induction L generalizing st with
  | nil => simp
  | cons h t ih =>
    have hh : h.isAsync = false := hsync h (List.mem_cons_self h t)
    have ht : ∀ x ∈ t, x.isAsync = false :=
      fun x hx => hsync x (List.mem_cons_of_mem h hx)
    rw [List.foldl_cons]
    by_cases hr : h.raises
    · rw [show runEventsStep st h =
          { st with invoked := st.invoked ++ [h.hid],
                    log := st.log ++ [h.hid] } by
            simp [runEventsStep, hh, hr]]
      rw [ih _ ht]
      simp [hr, List.append_assoc]
    · have hr' : h.raises = false := by simpa using hr
      rw [show runEventsStep st h =
          { st with invoked := st.invoked ++ [h.hid] } by
            simp [runEventsStep, hh, hr']]
      rw [ih _ ht]
      simp [hr', List.append_assoc]

/-- Selector lookups only produce handler lists stored in the registry. -/
theorem dictGet_sync (efs : List (String × List Handler))
    (hsync : ∀ p ∈ efs, ∀ h ∈ p.2, h.isAsync = false) (sel : String) :
    ∀ h ∈ (Dict.get efs sel).getD [], h.isAsync = false := by
  cases hget : Dict.get efs sel with
  | none => simp
  | some l =>
    unfold Dict.get at hget
    cases hfind : efs.find? (fun p => p.1 == sel) with
    | none => rw [hfind] at hget; exact absurd hget (by simp)
    | some p =>
      rw [hfind] at hget
      simp only [Option.map] at hget
      rw [Option.some.injEq] at hget
      subst hget
      simp only [Option.getD_some]
      exact hsync p (List.mem_of_find?_eq_some hfind)

/-- C4 (amended): an exception inside a SYNCHRONOUS handler is caught at
the dispatch boundary and logged; every other handler registered for the
event still runs and the receive loop keeps accepting envelopes (it never
aborts).  Suspend-capable handlers do not enjoy this protection — see the
counterexample — because only task creation sits inside `_run_events`'s
`try`, and a failing task makes the `asyncio.TaskGroup` cancel the
loop. -/
theorem syncHandler_isolation (efs : List (String × List Handler))
    (hsync : ∀ p ∈ efs, ∀ h ∈ p.2, h.isAsync = false) :
    (∀ sel st, runEvents efs sel st =
      { st with
        invoked := st.invoked ++
          ((Dict.get efs sel).getD []).map (fun h => h.hid),
        log := st.log ++
          (((Dict.get efs sel).getD []).filter
            (fun h => h.raises)).map (fun h => h.hid) }) ∧
    (∀ nick ignoreSelf envs,
      (runLoop nick ignoreSelf efs envs).aborted = false) := by
  have hre : ∀ sel st, runEvents efs sel st =
      { st with
        invoked := st.invoked ++
          ((Dict.get efs sel).getD []).map (fun h => h.hid),
        log := st.log ++
          (((Dict.get efs sel).getD []).filter
            (fun h => h.raises)).map (fun h => h.hid) } :=
    fun sel st => runEvents_sync_aux _ st (dictGet_sync efs hsync sel)
  refine ⟨hre, ?_⟩
  intro nick ignoreSelf envs
  suffices hinv : ∀ st : LoopState, st.tasks = [] → st.aborted = false →
      (envs.foldl (loopStep nick ignoreSelf efs) st).tasks = [] ∧
      (envs.foldl (loopStep nick ignoreSelf efs) st).aborted = false by
    exact (hinv ⟨[], [], [], [], false⟩ rfl rfl).2
  induction envs with
  | nil => intro st h1 h2; exact ⟨h1, h2⟩
  | cons env rest ih =>
    intro st h1 h2
    rw [List.foldl_cons]
    have hstep : (loopStep nick ignoreSelf efs st env).tasks = [] ∧
        (loopStep nick ignoreSelf efs st env).aborted = false := by
      unfold loopStep
      rw [if_neg (by rw [h2]; exact Bool.false_ne_true), h1]
      simp only [List.any_nil, Bool.false_eq_true, if_false]
      cases hj : jsonToObject env with
      | error e => exact ⟨by simp, by simp [h2]⟩
      | ok r =>
        cases r with
        | mk event env2 =>
          by_cases hself : selfCheck event nick ignoreSelf = true
          · simp only [hself, if_true]
            exact ⟨by simp, by simp [h2]⟩
          · rw [Bool.not_eq_true] at hself
            simp only [hself, Bool.false_eq_true, if_false]
            rw [hre, hre]
            exact ⟨by simp, by simp [h2]⟩
    exact ih _ hstep.1 hstep.2

/-- C4 witness: a raising synchronous handler is logged, its sibling
still runs for both envelopes, and the loop never aborts. -/
theorem syncHandler_isolation_witness :
    (runLoop "b" true [("__GLOBAL__", [⟨1, false, true⟩, ⟨2, false, false⟩])]
      [[("cmd", JVal.str "zzz")], [("cmd", JVal.str "zzz")]]).aborted
      = false :=
  (syncHandler_isolation
    [("__GLOBAL__", [⟨1, false, true⟩, ⟨2, false, false⟩])] (by decide)).2
    "b" true [[("cmd", JVal.str "zzz")], [("cmd", JVal.str "zzz")]]

/-! ## C10: self-event suppression -/

theorem selfCheck_of_nickOf (ev : Package) (botNick : String)
    (h : ev.nickOf = some botNick) : selfCheck ev botNick true = true := by
  cases ev <;> simp [Package.nickOf] at h <;> simp [selfCheck, h]

/-- C10: with `ignore_self=True`, an inbound chat / emote / user-joined /
user-left / whisper-received envelope whose nick equals the bot's current
nick is dropped before dispatch: no handler is invoked or scheduled for
it, nothing is logged, it is not fanned out, and hence the session
directory (a function of the dispatched events) is untouched — in
particular the bot's own join and leave events never add it to or remove
it from the roster. -/
theorem selfEvent_dropped (botNick : String)
    (efs : List (String × List Handler)) (st : LoopState) (env env2 : Envelope)
    (event : Package)
    (hok : jsonToObject env = .ok (event, env2))
    (hnick : event.nickOf = some botNick)
    (hab : st.aborted = false)
    (htasks : st.tasks.any (fun h => h.raises) = false) :
    loopStep botNick true efs st env = { st with tasks := [] } ∧
    (loopStep botNick true efs st env).invoked = st.invoked ∧
    (loopStep botNick true efs st env).log = st.log ∧
    internalRoster (loopStep botNick true efs st env).dispatched =
      internalRoster st.dispatched := by
  have hstep : loopStep botNick true efs st env = { st with tasks := [] } := by
    unfold loopStep
    rw [if_neg (by rw [hab]; exact Bool.false_ne_true), htasks]
    simp only [Bool.false_eq_true, if_false, hok]
    rw [selfCheck_of_nickOf event botNick hnick]
    simp
  exact ⟨hstep, by rw [hstep], by rw [hstep], by rw [hstep]⟩

/-- C10 witness: the bot's own chat message is dropped. -/
theorem selfEvent_dropped_witness :
    loopStep "hvbot" true [("__GLOBAL__", [⟨0, true, false⟩])]
        ⟨[], [], [], [], false⟩
        [("cmd", JVal.str "chat"), ("channel", JVal.str "c"),
         ("level", JVal.int 0), ("nick", JVal.str "hvbot"),
         ("text", JVal.str "hi"), ("time", JVal.int 1),
         ("uType", JVal.str "user"), ("userid", JVal.int 9)] =
      ⟨[], [], [], [], false⟩ :=
  (selfEvent_dropped "hvbot" [("__GLOBAL__", [⟨0, true, false⟩])]
      ⟨[], [], [], [], false⟩
      [("cmd", JVal.str "chat"), ("channel", JVal.str "c"),
       ("level", JVal.int 0), ("nick", JVal.str "hvbot"),
       ("text", JVal.str "hi"), ("time", JVal.int 1),
       ("uType", JVal.str "user"), ("userid", JVal.int 9)]
      [("cmd", JVal.str "chat"), ("channel", JVal.str "c"),
       ("level", JVal.int 0), ("nick", JVal.str "hvbot"),
       ("text", JVal.str "hi"), ("time", JVal.int 1),
       ("uType", JVal.str "user"), ("userid", JVal.int 9)]
      (.chat ⟨"c", none, 0, "hvbot", "hi", 1, none, .user, 9, none⟩)
      rfl rfl rfl rfl).1

/-! ## C9: partial-update idempotence -/

/-- One field step is idempotent. -/
theorem updField_idem {α : Type} [BEq α] [LawfulBEq α] (cur : α)
    (v : Option α) : updField (updField cur v) v = updField cur v := by
  cases v with
  | none => rfl
  | some x =>
    simp only [updField]
    by_cases h : cur == x
    · simp [h]
    · simp [h]

/-- One optional field step is idempotent. -/
theorem updOptField_idem {α : Type} [BEq α] [LawfulBEq α] (cur : Option α)
    (v : Option α) : updOptField (updOptField cur v) v = updOptField cur v := by
  cases v with
  | none => rfl
  | some x =>
    simp only [updOptField]
    by_cases h : cur == some x
    · simp [h]
    · simp [h]

/-- Absent (`None`) update fields are never applied. -/
theorem updField_none {α : Type} [BEq α] (cur : α) :
    updField cur none = cur := rfl

theorem updOptField_none {α : Type} [BEq α] (cur : Option α) :
    updOptField cur none = cur := rfl

/-- The per-user update is idempotent. -/
theorem applyUpdate_idem (u : User) (e : UpdateUserPackage) :
    applyUpdate (applyUpdate u e) e = applyUpdate u e := by
  unfold applyUpdate
  simp only [updField_idem, updOptField_idem]

/-- The update never changes the nickname the user was located by. -/
theorem applyUpdate_nick (u : User) (e : UpdateUserPackage) (n : String)
    (hn : e.nick = some n) (hu : u.nick = n) :
    (applyUpdate u e).nick = u.nick := by
  unfold applyUpdate
  simp only [hn, updField]
  have : (u.nick == n) = true := by simpa using hu
  simp [this]

/-- Updating the first match, when it sits after a block of
non-matching users, rewrites exactly that element. -/
theorem applyUpdateFirst_append (us1 : List User) (u : User) (us2 : List User)
    (n : String) (e : UpdateUserPackage)
    (hus1 : ∀ w ∈ us1, w.nick ≠ n) (hu : u.nick = n) :
    applyUpdateFirst (us1 ++ u :: us2) n e = us1 ++ applyUpdate u e :: us2 := by
  induction us1 with
  | nil =>
    have : (u.nick == n) = true := by simpa using hu
    simp [applyUpdateFirst, this]
  | cons w ws ih =>
    have hw : (w.nick == n) = false := by
      simpa using hus1 w (List.mem_cons_self w ws)
    simp only [List.cons_append, applyUpdateFirst, hw, Bool.false_eq_true,
      if_false, List.cons.injEq, true_and]
    exact ih (fun x hx => hus1 x (List.mem_cons_of_mem w hx))

/-- Locating the first match after a block of non-matching users. -/
theorem getUserByNick_append (us1 : List User) (u : User) (us2 : List User)
    (n : String) (hus1 : ∀ w ∈ us1, w.nick ≠ n) (hu : u.nick = n) :
    getUserByNick (us1 ++ u :: us2) n = some u := by
  induction us1 with
  | nil =>
    have : (u.nick == n) = true := by simpa using hu
    simp [getUserByNick, List.filter_cons, this]
  | cons w ws ih =>
    have hw : (w.nick == n) = false := by
      simpa using hus1 w (List.mem_cons_self w ws)
    simp only [getUserByNick, List.cons_append, List.filter_cons, hw,
      Bool.false_eq_true, if_false] at ih ⊢
    exact ih (fun x hx => hus1 x (List.mem_cons_of_mem w hx))

theorem applyUpdateFirst_idem (users : List User) (n : String)
    (e : UpdateUserPackage) (hn : e.nick = some n) :
    applyUpdateFirst (applyUpdateFirst users n e) n e =
      applyUpdateFirst users n e := by
  induction users with
  | nil => rfl
  | cons u rest ih =>
    by_cases h : (u.nick == n) = true
    · have hnick : (applyUpdate u e).nick = u.nick :=
        applyUpdate_nick u e n hn (by simpa using h)
      simp only [applyUpdateFirst, h, if_true]
      simp only [applyUpdateFirst, hnick, h, if_true, applyUpdate_idem]
    · have h' : (u.nick == n) = false := by simpa using h
      simp only [applyUpdateFirst, h', Bool.false_eq_true, if_false,
        List.cons.injEq, true_and]
      exact ih

/-- Locating by nickname is stable under the update (the first match
keeps its nick, everyone else is untouched). -/
theorem getUserByNick_applyUpdateFirst (users : List User) (n : String)
    (e : UpdateUserPackage) (hn : e.nick = some n) :
    (getUserByNick (applyUpdateFirst users n e) n).isSome =
      (getUserByNick users n).isSome := by
  induction users with
  | nil => rfl
  | cons u rest ih =>
    by_cases h : (u.nick == n) = true
    · have hnick : (applyUpdate u e).nick = u.nick :=
        applyUpdate_nick u e n hn (by simpa using h)
      simp only [applyUpdateFirst, h, if_true, getUserByNick,
        List.filter_cons, hnick, h]
      simp [h]
    · have h' : (u.nick == n) = false := by simpa using h
      simp only [applyUpdateFirst, h', Bool.false_eq_true, if_false,
        getUserByNick, List.filter_cons, h'] at ih ⊢
      exact ih

/-- The shape of `updateUserInUsers` once the nick guard passes. -/
theorem updateUserInUsers_some (users : List User) (e : UpdateUserPackage)
    (n : String) (hn : e.nick = some n) (hne : n ≠ "") :
    updateUserInUsers users e =
      match getUserByNick users n with
      | none => users
      | some _ => applyUpdateFirst users n e := by
  unfold updateUserInUsers
  rw [hn]
  have hne' : (n == "") = false := by simpa using hne
  simp [hne']

/-- C9: applying the same user-attribute-update twice yields the same
session directory as applying it once; each application overwrites only
the present (non-`None`) fields of the first participant whose nick
matches, leaving absent fields (and the `isme` flag, which the update
does not carry) and all other participants unchanged. -/
theorem updateUser_idempotent (users : List User) (e : UpdateUserPackage) :
    (updateUserInUsers (updateUserInUsers users e) e =
      updateUserInUsers users e) ∧
    (∀ u : User,
      (e.channel = none → (applyUpdate u e).channel = u.channel) ∧
      (e.hash = none → (applyUpdate u e).hash = u.hash) ∧
      (e.isBot = none → (applyUpdate u e).isBot = u.isBot) ∧
      (e.level = none → (applyUpdate u e).level = u.level) ∧
      (e.nick = none → (applyUpdate u e).nick = u.nick) ∧
      (e.trip = none → (applyUpdate u e).trip = u.trip) ∧
      (e.uType = none → (applyUpdate u e).uType = u.uType) ∧
      (e.userid = none → (applyUpdate u e).userid = u.userid) ∧
      (applyUpdate u e).isme = u.isme) ∧
    (∀ n, e.nick = some n → n ≠ "" →
      ∀ us1 u us2, users = us1 ++ u :: us2 →
        (∀ w ∈ us1, w.nick ≠ n) → u.nick = n →
        updateUserInUsers users e = us1 ++ applyUpdate u e :: us2) := by
  refine ⟨?_, ?_, ?_⟩
  · cases hn : e.nick with
    | none => unfold updateUserInUsers; rw [hn]
    | some n =>
      by_cases hne : n = ""
      · subst hne
        unfold updateUserInUsers
        rw [hn]
        simp
      · rw [updateUserInUsers_some users e n hn hne]
        cases hget : getUserByNick users n with
        | none => rw [updateUserInUsers_some users e n hn hne, hget]
        | some u =>
          rw [updateUserInUsers_some _ e n hn hne]
          cases hget2 : getUserByNick (applyUpdateFirst users n e) n with
          | none => rfl
          | some u2 => exact applyUpdateFirst_idem users n e hn
  · intro u
    refine ⟨?_, ?_, ?_, ?_, ?_, ?_, ?_, ?_, rfl⟩ <;> intro h <;>
      simp [applyUpdate, h, updField_none, updOptField_none]
  · intro n hn hne us1 u us2 husers hus1 hu
    subst husers
    rw [updateUserInUsers_some _ e n hn hne,
      getUserByNick_append us1 u us2 n hus1 hu]
    exact applyUpdateFirst_append us1 u us2 n e hus1 hu

/-- C9 witness: a concrete double update equals the single update, and a
concrete absent field survives. -/
theorem updateUser_idempotent_witness :
    (updateUserInUsers (updateUserInUsers
        [⟨some "c", .str "f00", "h1", false, false, 1, "alice", none, .user, 7⟩,
         ⟨some "c", .bool false, "h2", false, false, 2, "bob", none, .user, 8⟩]
        ⟨none, .str "red", none, none, some 5, some "bob", none, none, none, none⟩)
        ⟨none, .str "red", none, none, some 5, some "bob", none, none, none, none⟩ =
      updateUserInUsers
        [⟨some "c", .str "f00", "h1", false, false, 1, "alice", none, .user, 7⟩,
         ⟨some "c", .bool false, "h2", false, false, 2, "bob", none, .user, 8⟩]
        ⟨none, .str "red", none, none, some 5, some "bob", none, none, none, none⟩) ∧
    (applyUpdate
        ⟨some "c", .bool false, "h2", false, false, 2, "bob", none, .user, 8⟩
        ⟨none, .str "red", none, none, some 5, some "bob", none, none, none, none⟩).hash =
      "h2" := by
  constructor
  · exact (updateUser_idempotent
      [⟨some "c", .str "f00", "h1", false, false, 1, "alice", none, .user, 7⟩,
       ⟨some "c", .bool false, "h2", false, false, 2, "bob", none, .user, 8⟩]
      ⟨none, .str "red", none, none, some 5, some "bob", none, none, none, none⟩).1
  · exact ((updateUser_idempotent
      [⟨some "c", .str "f00", "h1", false, false, 1, "alice", none, .user, 7⟩,
       ⟨some "c", .bool false, "h2", false, false, 2, "bob", none, .user, 8⟩]
      ⟨none, .str "red", none, none, some 5, some "bob", none, none, none, none⟩).2.1
      ⟨some "c", .bool false, "h2", false, false, 2, "bob", none, .user, 8⟩).2.1 rfl

/-! ## C1: classifier totality -/

/-- C1, counterexample: `json_to_object` is not total.  An envelope with
no `cmd` key raises `ValueError` (as the function's own docstring
documents), and an `emote` envelope whose text contains no space raises
`IndexError` from `text.split(" ", 1)[1]` — neither falls back to the
catch-all variant. -/
theorem jsonToObject_not_total_cex :
    jsonToObject [] = .error (.valueError "No `cmd` provided") ∧
    jsonToObject [("cmd", JVal.str "emote"), ("channel", JVal.str "c"),
        ("nick", JVal.str "n"), ("text", JVal.str "waves"),
        ("time", JVal.int 1), ("userid", JVal.int 1)] =
      .error .indexError := by
  exact ⟨rfl, rfl⟩

/-- C1 (amended): the catch-all guarantee only holds for envelopes whose
`cmd` is truthy and not one of the recognized commands — those yield the
catch-all variant carrying the raw data, with the envelope untouched.  A
missing or falsy `cmd` raises `ValueError`, and malformed recognized
shapes can raise (`IndexError`, `KeyError`, pydantic validation). -/
theorem jsonToObject_unknown_cmd (data : Envelope)
    (htruthy : jtruthy (data.get "cmd") = true)
    (hunk : ∀ r ∈ RECOGNIZED_CMDS, jeqStr (data.get "cmd") r = false) :
    jsonToObject data = .ok (.uncatched ⟨data⟩, data) := by
  have h0 := hunk "chat" (by decide)
  have h1 := hunk "emote" (by decide)
  have h2 := hunk "info" (by decide)
  have h3 := hunk "onlineSet" (by decide)
  have h4 := hunk "onlineAdd" (by decide)
  have h5 := hunk "onlineRemove" (by decide)
  have h6 := hunk "updateUser" (by decide)
  have h7 := hunk "updateMessage" (by decide)
  have h8 := hunk "captcha" (by decide)
  have h9 := hunk "warn" (by decide)
  simp [jsonToObject, htruthy, h0, h1, h2, h3, h4, h5, h6, h7, h8, h9,
    pure, Except.pure, bind, Except.bind]

/-- C1 witness: a concrete unknown command degrades to the catch-all. -/
theorem jsonToObject_unknown_cmd_witness :
    jsonToObject [("cmd", JVal.str "pong")] =
      .ok (.uncatched ⟨[("cmd", JVal.str "pong")]⟩,
           [("cmd", JVal.str "pong")]) :=
  jsonToObject_unknown_cmd [("cmd", JVal.str "pong")] (by decide) (by decide)

/-! ## C3: warn classification -/

/-- C3: the five phrases of `RL_MAPPING` classify to the rate-limited
variant with the matching typed reason, but the `warn` branch's membership
list contains a sixth phrase — "You are sending invites too fast. Wait a
moment before trying again." — that `RL_MAPPING` does not map, so that
warn text raises `KeyError` instead of yielding the generic warning the
spec promises for every non-table text. -/
theorem warn_classification_keyerror :
    (jsonToObject [("cmd", JVal.str "warn"),
        ("text", JVal.str "You are joining channels too fast. Wait a moment and try again.")] =
      .ok (.rateLimited ⟨.CHANNEL_RL,
            "You are joining channels too fast. Wait a moment and try again."⟩,
          [("cmd", JVal.str "warn"),
           ("text", JVal.str "You are joining channels too fast. Wait a moment and try again.")])) ∧
    (jsonToObject [("cmd", JVal.str "warn"),
        ("text", JVal.str "You are changing colors too fast. Wait a moment before trying again.")] =
      .ok (.rateLimited ⟨.COLOR_RL,
            "You are changing colors too fast. Wait a moment before trying again."⟩,
          [("cmd", JVal.str "warn"),
           ("text", JVal.str "You are changing colors too fast. Wait a moment before trying again.")])) ∧
    (jsonToObject [("cmd", JVal.str "warn"),
        ("text", JVal.str "You are changing nicknames too fast. Wait a moment before trying again.")] =
      .ok (.rateLimited ⟨.CHANGENICK_RL,
            "You are changing nicknames too fast. Wait a moment before trying again."⟩,
          [("cmd", JVal.str "warn"),
           ("text", JVal.str "You are changing nicknames too fast. Wait a moment before trying again.")])) ∧
    (jsonToObject [("cmd", JVal.str "warn"),
        ("text", JVal.str "You are sending too much text. Wait a moment and try again.\nPress the up arrow key to restore your last message.")] =
      .ok (.rateLimited ⟨.MESSAGE_RL,
            "You are sending too much text. Wait a moment and try again.\nPress the up arrow key to restore your last message."⟩,
          [("cmd", JVal.str "warn"),
           ("text", JVal.str "You are sending too much text. Wait a moment and try again.\nPress the up arrow key to restore your last message.")])) ∧
    (jsonToObject [("cmd", JVal.str "warn"),
        ("text", JVal.str "You are rate-limited or blocked.")] =
      .ok (.rateLimited ⟨.GLOBAL_RL, "You are rate-limited or blocked."⟩,
          [("cmd", JVal.str "warn"),
           ("text", JVal.str "You are rate-limited or blocked.")])) ∧
    (jsonToObject [("cmd", JVal.str "warn"),
        ("text", JVal.str "You are sending invites too fast. Wait a moment before trying again.")] =
      .error (.keyError "You are sending invites too fast. Wait a moment before trying again.")) ∧
    (jsonToObject [("cmd", JVal.str "warn"), ("text", JVal.str "Some other warning.")] =
      .ok (.warn ⟨"Some other warning."⟩,
          [("cmd", JVal.str "warn"), ("text", JVal.str "Some other warning.")])) := by
  exact ⟨rfl, rfl, rfl, rfl, rfl, rfl, rfl⟩

/-! ## C5: nickname-change disambiguation -/

/-- C5: the nickname-change pattern of the `info` branch matches
`"Alice is now Bob_2"`, but constructing the result then always raises a
pydantic validation error: `ChangeNickPackage` declares
`cmd: Literal["changenick"]` while the envelope carries `cmd="info"`, so
the nickname-change variant is never produced (the receive loop logs the
exception and drops the event).  A text failing nickname validity falls
through to the generic info variant as specified. -/
theorem changenick_literal_bug :
    (jsonToObject [("cmd", JVal.str "info"),
        ("text", JVal.str "Alice is now Bob_2"),
        ("channel", JVal.str "lounge"), ("time", JVal.int 1700000000)] =
      .error (.validationError "ChangeNickPackage")) ∧
    (jsonToObject [("cmd", JVal.str "info"),
        ("text", JVal.str "Alice is now not valid nick!!"),
        ("channel", JVal.str "lounge"), ("time", JVal.int 1700000000)] =
      .ok (.info ⟨"Alice is now not valid nick!!"⟩,
          [("cmd", JVal.str "info"),
           ("text", JVal.str "Alice is now not valid nick!!"),
           ("channel", JVal.str "lounge"), ("time", JVal.int 1700000000)])) := by
  exact ⟨rfl, rfl⟩

/-! ## C7: classifier purity -/

/-- C7, counterexample: `json_to_object` mutates the envelope it is
given.  Classifying a received whisper deletes its `"to"` key and adds
`"userid_to"` and `"content"`, so the returned dict differs from the
input, and a second call on that same (now mutated) dict raises
`KeyError: "to"` instead of returning the original classification. -/
theorem jsonToObject_mutates_input_cex :
    (jsonToObject [("cmd", JVal.str "info"), ("type", JVal.str "whisper"),
        ("channel", JVal.str "c"), ("from", JVal.str "alice"),
        ("text", JVal.str "alice whispered: hi"), ("time", JVal.int 1),
        ("to", JVal.int 5)] =
      .ok (.whisper ⟨"c", "alice", "alice whispered: hi", "hi", 1, 5, none⟩,
          [("cmd", JVal.str "info"), ("type", JVal.str "whisper"),
           ("channel", JVal.str "c"), ("from", JVal.str "alice"),
           ("text", JVal.str "alice whispered: hi"), ("time", JVal.int 1),
           ("userid_to", JVal.int 5), ("content", JVal.str "hi")])) ∧
    ([("cmd", JVal.str "info"), ("type", JVal.str "whisper"),
      ("channel", JVal.str "c"), ("from", JVal.str "alice"),
      ("text", JVal.str "alice whispered: hi"), ("time", JVal.int 1),
      ("userid_to", JVal.int 5), ("content", JVal.str "hi")] ≠
     ([("cmd", JVal.str "info"), ("type", JVal.str "whisper"),
       ("channel", JVal.str "c"), ("from", JVal.str "alice"),
       ("text", JVal.str "alice whispered: hi"), ("time", JVal.int 1),
       ("to", JVal.int 5)] : Envelope)) ∧
    (jsonToObject [("cmd", JVal.str "info"), ("type", JVal.str "whisper"),
        ("channel", JVal.str "c"), ("from", JVal.str "alice"),
        ("text", JVal.str "alice whispered: hi"), ("time", JVal.int 1),
        ("userid_to", JVal.int 5), ("content", JVal.str "hi")] =
      .error (.keyError "to")) := by
  refine ⟨rfl, ?_, rfl⟩
  intro h
  have := congrArg List.length h
  simp at this

/-! ## C2: command router -/

/-- Splitting at a one-character separator is take/drop at its first
occurrence. -/
theorem splitOnce_single (c : Char) (l : List Char) :
    splitOnce l [c] =
      if c ∈ l then
        some (l.takeWhile (fun x => x != c),
              (l.dropWhile (fun x => x != c)).drop 1)
      else none := by
  induction l with
  | nil => simp [splitOnce]
  | cons a rest ih =>
    rw [splitOnce]
    by_cases hac : a = c
    · subst hac
      simp [List.isPrefixOf, List.takeWhile_cons, List.dropWhile_cons]
    · have hpre : ([c].isPrefixOf (a :: rest)) = false := by
        simp [List.isPrefixOf]
        exact fun h => absurd h.symm hac
      rw [hpre]
      simp only [if_false, Bool.false_eq_true, ih]
      by_cases hmem : c ∈ rest
      · simp only [hmem, if_pos, if_true, List.mem_cons, hmem, or_true,
          List.takeWhile_cons, List.dropWhile_cons]
        have : (a != c) = true := by simpa using hac
        simp [this]
      · simp only [hmem, if_neg, if_false]
        have : c ∉ a :: rest := by
          simp [List.mem_cons, hmem]
          exact fun h => absurd h.symm hac
        simp [this]

/-- When the text contains a space, `text.split(" ", 1)[1]` is
`afterFirstSpace text`. -/
theorem pySplit1_space (text : String) (hsp : ' ' ∈ text.data) :
    pyIndex (pySplit1 text " ") 1 = .ok (afterFirstSpace text) := by
  unfold pySplit1
  have hdata : (" " : String).data = [' '] := rfl
  rw [hdata, splitOnce_single, if_pos hsp]
  rfl

/-- Dropping the space-free prefix: `dropWhile (≠ ' ')` over
`l ++ ' ' :: rest` with `l` space-free stops exactly at the space. -/
theorem dropWhile_ne_space_append (l rest : List Char)
    (h : ∀ a ∈ l, a ≠ ' ') :
    ((l ++ ' ' :: rest).dropWhile (fun c => c != ' ')) = ' ' :: rest := by
  induction l with
  | nil => simp [List.dropWhile_cons]
  | cons a as ih =>
    have ha : a ≠ ' ' := h a (List.mem_cons_self a as)
    have hane : (a != ' ') = true := by simpa using ha
    simp only [List.cons_append, List.dropWhile_cons, hane, if_true]
    exact ih (fun x hx => h x (List.mem_cons_of_mem a hx))

/-- A space-free prefix `P` of `text` followed by a space: everything
after the first space of `text` is `text` minus its first
`len(P) + 1` characters (the claim's argument rule, valid only for
space-free prefixes). -/
theorem afterFirstSpace_of_spacefree (P text : String)
    (hnosp : ' ' ∉ P.data)
    (hpre : pyStartsWith text (P ++ " ") = true) :
    afterFirstSpace text = String.mk (text.data.drop (P.length + 1)) := by
  unfold pyStartsWith at hpre
  rw [List.isPrefixOf_iff_prefix] at hpre
  obtain ⟨rest, hrest⟩ := hpre
  have hPdata : (P ++ " ").data = P.data ++ [' '] := by simp
  rw [hPdata] at hrest
  unfold afterFirstSpace
  rw [← hrest, List.append_assoc, List.singleton_append,
    dropWhile_ne_space_append P.data rest (fun a ha heq => hnosp (heq ▸ ha)),
    List.drop_one, List.tail_cons]
  congr 1
  have hlen : (P.data ++ [' ']).length = P.length + 1 := by
    rw [List.length_append]
    rfl
  rw [show P.data ++ ' ' :: rest = (P.data ++ [' ']) ++ rest by
        rw [List.append_assoc, List.singleton_append],
      List.drop_left' hlen]

/-- A matched prefix that is not the whole text forces a space in the
text. -/
theorem space_mem_of_startsWith (text P : String)
    (h : pyStartsWith text (P ++ " ") = true) : ' ' ∈ text.data := by
  unfold pyStartsWith at h
  rw [List.isPrefixOf_iff_prefix] at h
  obtain ⟨rest, hrest⟩ := h
  rw [← hrest]
  simp

/-- C2, counterexample: for the spec's own example prefix `.hv plugin`
(which contains a space) and text `.hv plugin now`, the command IS
invoked, but with argument `"plugin now"` — the text after its first
space — not `"now"`, the text with its first `len(P)+1` characters
removed as the claim states. -/
theorem runCommands_args_cex :
    (runCommands
        [⟨some "c", .str "f00", "h", false, false, 1, "alice", none, .user, 7⟩]
        [(".hv plugin", 0)] "alice" ".hv plugin now" "chat" =
      [(0, ⟨⟨some "c", .str "f00", "h", false, false, 1, "alice", none, .user, 7⟩,
            "chat", ".hv plugin now", "plugin now"⟩)]) ∧
    String.mk ((".hv plugin now" : String).data.drop
        ((".hv plugin" : String).length + 1)) = "now" ∧
    ("plugin now" : String) ≠ "now" := by
  refine ⟨rfl, rfl, ?_⟩
  decide

/-- C2 (amended): a chat or whisper message with text `T` invokes the
command of every registered prefix `P` with `T == P` or
`T.startswith(P + " ")` (all matches run, in registration order, no
short-circuit), with argument `""` when `T == P` and otherwise the text
after the FIRST SPACE OF `T` — which coincides with `T` minus its first
`len(P)+1` characters exactly when `P` contains no space. -/
theorem runCommands_spec (users : List User) (commands : List (String × Nat))
    (nick text via : String) (u : User)
    (hu : getUserByNick users nick = some u) :
    (runCommands users commands nick text via =
      commands.filterMap (fun c =>
        if text = c.1 then some (c.2, ⟨u, via, text, ""⟩)
        else if pyStartsWith text (c.1 ++ " ") then
          some (c.2, ⟨u, via, text, afterFirstSpace text⟩)
        else none)) ∧
    (∀ P : String, ' ' ∉ P.data → pyStartsWith text (P ++ " ") = true →
      afterFirstSpace text = String.mk (text.data.drop (P.length + 1))) := by
  constructor
  · unfold runCommands
    apply filterMap_congr_mem
    intro c _
    by_cases heq : text = c.1
    · have hbeq : (text == c.1) = true := by simpa using heq
      have hne : (text != c.1) = false := by simpa using heq
      rw [hbeq, Bool.or_true, if_pos rfl, hu, hne, if_pos heq]
      rfl
    · have hbeq : (text == c.1) = false := by simpa using heq
      have hne : (text != c.1) = true := by simpa using heq
      rw [hbeq, Bool.or_false, if_neg heq]
      by_cases hsw : pyStartsWith text (c.1 ++ " ") = true
      · rw [hsw, if_pos rfl, hu, hne, if_pos rfl,
          pySplit1_space text (space_mem_of_startsWith text c.1 hsw)]
        rfl
      · rw [Bool.not_eq_true] at hsw
        rw [hsw]
        simp
  · intro P hP hsw
    exact afterFirstSpace_of_spacefree P text hP hsw

/-- C2 witness: a space-free prefix obeys the claim's argument rule. -/
theorem runCommands_spec_witness :
    runCommands
        [⟨some "c", .str "f00", "h", false, false, 1, "alice", none, .user, 7⟩]
        [("/ping", 4)] "alice" "/ping hello world" "whisper" =
      [(4, ⟨⟨some "c", .str "f00", "h", false, false, 1, "alice", none, .user, 7⟩,
            "whisper", "/ping hello world", "hello world"⟩)] :=
  (runCommands_spec
      [⟨some "c", .str "f00", "h", false, false, 1, "alice", none, .user, 7⟩]
      [("/ping", 4)] "alice" "/ping hello world" "whisper"
      ⟨some "c", .str "f00", "h", false, false, 1, "alice", none, .user, 7⟩
      rfl).1.trans (by decide)

/-- C7 (amended): the classifier performs no I/O and keeps no state, and
equal envelope values always classify equally; but it mutates its input
on the emote / whisper / invite / nickname-change paths, so only for the
non-mutating commands is the returned envelope the unchanged input (hence
only there does re-classifying the same dict agree with the first
call). -/
theorem jsonToObject_non_mutating (data : Envelope) (s : String)
    (hcmd : data.get "cmd" = some (.str s)) (hs : s ∈ NON_MUTATING_CMDS)
    (p : Package) (env2 : Envelope)
    (hok : jsonToObject data = .ok (p, env2)) : env2 = data := by
  fin_cases hs <;>
  · simp only [jsonToObject, hcmd, jtruthy, jeqStr, bind, Except.bind,
      pure, Except.pure] at hok
    simp at hok
    repeat' split at hok
    all_goals
      first
      | (simp only [Except.ok.injEq, Prod.mk.injEq] at hok
         exact hok.2.symm)
      | exact absurd hok (by simp)

/-- C7 witness: a concrete non-mutating classification (a plain warn)
returns its envelope unchanged. -/
theorem jsonToObject_non_mutating_witness :
    ([("cmd", JVal.str "warn"), ("text", JVal.str "boo")] : Envelope) =
      [("cmd", JVal.str "warn"), ("text", JVal.str "boo")] :=
  jsonToObject_non_mutating
    [("cmd", JVal.str "warn"), ("text", JVal.str "boo")] "warn" rfl
    (by decide) (.warn ⟨"boo"⟩)
    [("cmd", JVal.str "warn"), ("text", JVal.str "boo")] rfl

end Hvicorn
